import Mathlib

/-!
# MSP configuration handler (common/configtx/handlers/msp/config.go)

A shallow embedding of `MSPConfigHandler` and its four operations
`BeginConfig`, `RollbackConfig`, `CommitConfig` and `ProposeMSP`.

Modelling conventions.

* Go pointers are modelled by an address (`ref : Nat`) next to the contents of the
  object; a fresh object takes the address `Sys.next`, which is then advanced.  Two
  objects are the same object exactly when their addresses agree, so that
  "the same instance" and "a newly built instance" can be told apart.
* A Go `map[string]*pendingMSPConfig` is an association list with distinct keys
  (`AList`).  Go does not fix the order in which `range` visits a map; the order is
  chosen by the environment (`Env.range`), which may return any permutation.
* The package `msp` (provider instances, trust managers, the constant `FABRIC`) is not
  part of the handler file.  Its behaviour is a parameter (`Env`); the answer of each of
  its operations may depend on the address of the object it is called on, so that the
  environment may answer differently at each call.
* A Go panic is the result `Ret.panic`; the state returned next to it is the state at
  the moment of the panic.
* The argument of `ProposeMSP` is a non-nil `*MSPConfig`.
-/

namespace MSPHandler

/-- Modelled from the spec: the protobuf message `mspprotos.MSPConfig`, declared outside the
handler file, "an opaque, typed payload (type tag + serialized body)".  `type` is the
`int32` field `Type`; `Config` is the byte slice, `none` being the nil slice, which
`reflect.DeepEqual` tells apart from an empty one. -/
structure MSPConfig where
  type : Int
  Config : Option (List Nat)
deriving DecidableEq

/-- Modelled from the spec: an identity provider instance (`msp.MSP`, declared outside the
handler file), "stateful object constructed from a configuration".  `ref` is the address
of the object returned by `msp.NewBccspMsp`, `conf` the configuration its `Setup` was
called with. -/
structure MSP where
  ref : Nat
  conf : MSPConfig
deriving DecidableEq

/-- Modelled from the spec: a trust manager (`msp.MSPManager`, declared outside the handler
file), "constructed from a finite collection of Identity Provider instances via
setup(providers)".  `ref` is the address of the object returned by `msp.NewMSPManager`;
`msps` is the list its `Setup` was called with (`none`: never called); `up` tells whether
that call returned no error. -/
structure MSPManager where
  ref : Nat
  msps : Option (List MSP)
  up : Bool
deriving DecidableEq

/-- The struct `pendingMSPConfig` (config.go, lines 27-30). -/
structure pendingMSPConfig where
  mspConfig : MSPConfig
  msp : MSP
deriving DecidableEq

/-- The type of `idMap`: a Go map from identifiers to pending configurations. -/
abbrev IdMap := AList (fun _ : String => pendingMSPConfig)

/-- Two maps are equal when they have the same list of entries. -/
instance instDecidableEqIdMap : DecidableEq IdMap := fun a b =>
  decidable_of_iff (a.entries = b.entries) AList.ext_iff.symm

deriving instance DecidableEq for Except

/-- The struct `mspConfigStore` (config.go, lines 32-35), with the address `ref` of the
store object; `proposedMgr = none` is the nil interface value. -/
structure mspConfigStore where
  ref : Nat
  idMap : IdMap
  proposedMgr : Option MSPManager
deriving DecidableEq

/-- The struct `MSPConfigHandler` (config.go, lines 38-41): `pendingConfig = none` is the
nil pointer, `MSPManager` is the embedded interface value (`none`: nil). -/
structure MSPConfigHandler where
  pendingConfig : Option mspConfigStore
  MSPManager : Option MSPManager
deriving DecidableEq

/-- The handler together with the next unused address. -/
structure Sys where
  next : Nat
  bh : MSPConfigHandler
deriving DecidableEq

/-- Result of a call: a normal return with a value, or a Go panic. -/
inductive Ret (α : Type) where
  | done (v : α)
  | panic (msg : String)
deriving DecidableEq

/-- Modelled from the spec: the package `msp` used by the handler and Go's map iteration, both
outside the handler file.  `FABRIC` is the constant `int32(msp.FABRIC)`;
`NewBccspMsp r` is the error (if any) of `msp.NewBccspMsp()` creating the object at
address `r`; `Setup r c` the error of `mspInst.Setup(c)` on that object;
`GetIdentifier i` the result of `i.GetIdentifier()`; `mgrSetup r l` the error of
`Setup(l)` on the manager at address `r`; `range r es` the order in which the `range`
loop preceding the creation of the manager at address `r` visits the entries `es`. -/
structure Env where
  FABRIC : Int
  NewBccspMsp : Nat → Option String
  Setup : Nat → MSPConfig → Option String
  GetIdentifier : MSP → Except String String
  mgrSetup : Nat → List MSP → Option String
  range : Nat → List (Sigma fun _ : String => pendingMSPConfig) →
    List (Sigma fun _ : String => pendingMSPConfig)
  range_perm : ∀ r es, (range r es).Perm es

/-- `BeginConfig` (config.go, lines 44-51). -/
def BeginConfig (s : Sys) : Sys × Ret Unit :=
  match s.bh.pendingConfig with
  | some _ =>
    (s, .panic "Programming error, called BeginConfig while a proposal was in process")
  | none =>
    ({ next := s.next + 1,
       bh := { s.bh with
         pendingConfig := some { ref := s.next, idMap := ∅, proposedMgr := none } } },
     .done ())

/-- `RollbackConfig` (config.go, lines 54-56). -/
def RollbackConfig (s : Sys) : Sys × Ret Unit :=
  ({ s with bh := { s.bh with pendingConfig := none } }, .done ())

/-- `CommitConfig` (config.go, lines 59-66). -/
def CommitConfig (s : Sys) : Sys × Ret Unit :=
  match s.bh.pendingConfig with
  | none =>
    (s, .panic "Programming error, called CommitConfig with no proposal in process")
  | some store =>
    ({ s with bh := { pendingConfig := none, MSPManager := store.proposedMgr } }, .done ())

/-- The list `mspList` of lines 103-108: the instances of the entries of the map, in the
order in which `range` visits them before the manager at address `r` is created. -/
def mspList (env : Env) (r : Nat) (idMap : IdMap) : List MSP :=
  (env.range r idMap.entries).map (fun e => e.2.msp)

/-- `ProposeMSP` (config.go, lines 69-120).  The value returned is the Go pair
`(msp.MSP, error)`. -/
def ProposeMSP (env : Env) (s : Sys) (mspConfig : MSPConfig) :
    Sys × Ret (Option MSP × Option String) :=
  if mspConfig.type ≠ env.FABRIC then
    (s, .done (none,
      some ("Setup error: unsupported msp type " ++ toString mspConfig.type)))
  else
    let s1 : Sys := { s with next := s.next + 1 }
    match env.NewBccspMsp s.next with
    | some err =>
      (s1, .done (none, some ("Creating the MSP manager failed, err " ++ err)))
    | none =>
    match env.Setup s.next mspConfig with
    | some err =>
      (s1, .done (none, some ("Setting up the MSP manager failed, err " ++ err)))
    | none =>
    let mspInst : MSP := { ref := s.next, conf := mspConfig }
    match env.GetIdentifier mspInst with
    | .error err =>
      (s1, .done (none, some ("Could not extract msp identifier, err " ++ err)))
    | .ok mspID =>
    match s.bh.pendingConfig with
    | none =>
      (s1, .panic "runtime error: invalid memory address or nil pointer dereference")
    | some store =>
    match store.idMap.lookup mspID with
    | some existingPendingMSPConfig =>
      if existingPendingMSPConfig.mspConfig ≠ mspConfig then
        (s1, .done (none,
          some ("Attempted to define two different versions of MSP: " ++ mspID)))
      else
        let idMap := store.idMap.insert mspID { mspConfig := mspConfig, msp := mspInst }
        let l := mspList env (s.next + 1) idMap
        let err := env.mgrSetup (s.next + 1) l
        let mgr : MSPManager := { ref := s.next + 1, msps := some l, up := err.isNone }
        ({ next := s.next + 2,
           bh := { s.bh with
             pendingConfig := some { store with idMap := idMap, proposedMgr := some mgr } } },
         .done (if err.isSome then (none, err) else (some mspInst, none)))
    | none =>
      let idMap := store.idMap.insert mspID { mspConfig := mspConfig, msp := mspInst }
      let l := mspList env (s.next + 1) idMap
      let err := env.mgrSetup (s.next + 1) l
      let mgr : MSPManager := { ref := s.next + 1, msps := some l, up := err.isNone }
      ({ next := s.next + 2,
         bh := { s.bh with
           pendingConfig := some { store with idMap := idMap, proposedMgr := some mgr } } },
       .done (if err.isSome then (none, err) else (some mspInst, none)))

/-- A sequence of `ProposeMSP` calls, one per configuration, in turn; the results of the
calls are collected in order. -/
def proposeAll (env : Env) :
    Sys → List MSPConfig → Sys × List (Ret (Option MSP × Option String))
  | s, [] => (s, [])
  | s, c :: cs =>
    ((proposeAll env (ProposeMSP env s c).1 cs).1,
     (ProposeMSP env s c).2 :: (proposeAll env (ProposeMSP env s c).1 cs).2)

/-- A call of one of the four operations of the handler. -/
inductive Call where
  | begin
  | propose (c : MSPConfig)
  | commit
  | rollback
deriving DecidableEq

/-- The state after a call (the state at the panic when the call panics). -/
def step (env : Env) (s : Sys) : Call → Sys
  | .begin => (BeginConfig s).1
  | .propose c => (ProposeMSP env s c).1
  | .commit => (CommitConfig s).1
  | .rollback => (RollbackConfig s).1

/-- The state after a sequence of calls. -/
def run (env : Env) (s : Sys) (calls : List Call) : Sys :=
  calls.foldl (step env) s

/-- The store after line 97-115 ran for identifier `mspID`: the entry is written and the
proposed manager is a new one on which `Setup` was called with the collected list. -/
def rebuilt (env : Env) (n : Nat) (store : mspConfigStore) (mspID : String)
    (mspConfig : MSPConfig) : mspConfigStore :=
  { store with
    idMap := store.idMap.insert mspID { mspConfig := mspConfig, msp := ⟨n, mspConfig⟩ },
    proposedMgr := some
      { ref := n + 1,
        msps := some (mspList env (n + 1)
          (store.idMap.insert mspID { mspConfig := mspConfig, msp := ⟨n, mspConfig⟩ })),
        up := (env.mgrSetup (n + 1) (mspList env (n + 1)
          (store.idMap.insert mspID { mspConfig := mspConfig, msp := ⟨n, mspConfig⟩ }))).isNone } }

/-- The never-stale property of a store: the proposed manager is absent, or its `Setup`
was called with a list holding exactly the instances of the entries of `idMap`. -/
def NeverStale (store : mspConfigStore) : Prop :=
  store.proposedMgr = none ∨
    ∃ m l, store.proposedMgr = some m ∧ m.msps = some l ∧
      l.Perm (store.idMap.entries.map (fun e => e.2.msp))

/-- The invariant of the reachable states: an open store is never stale, every instance it
holds was created before the next unused address, and no instance is held twice. -/
def WellFormed (s : Sys) : Prop :=
  ∀ store, s.bh.pendingConfig = some store →
    NeverStale store ∧
    (∀ e ∈ store.idMap.entries, e.2.msp.ref < s.next) ∧
    (store.idMap.entries.map (fun e => e.2.msp.ref)).Nodup

/-! ## A sample environment and sample states -/

/-- A sample environment: creation never fails; `Setup` rejects a nil body; the identifier
is read off the first byte of the body; a manager rejects a list holding an instance whose
body contains the byte 13; `range` visits the entries in reverse order. -/
def demoEnv : Env where
  FABRIC := 0
  NewBccspMsp := fun _ => none
  Setup := fun _ c => if c.Config = none then some "nil config" else none
  GetIdentifier := fun i =>
    match i.conf.Config with
    | some (1 :: _) => .ok "org1"
    | some (2 :: _) => .ok "org2"
    | some (_ :: _) => .ok "org3"
    | _ => .error "no identifier"
  mgrSetup := fun _ l =>
    if l.any (fun i => (i.conf.Config.getD []).contains 13) then some "rejected" else none
  range := fun _ es => es.reverse
  range_perm := fun _ es => List.reverse_perm es

/-- A committed manager, set up with no instance. -/
def demoMgr : MSPManager := { ref := 0, msps := some [], up := true }

/-- A handler with no open proposal and committed manager `demoMgr`. -/
def demoIdle : Sys := { next := 1, bh := { pendingConfig := none, MSPManager := some demoMgr } }

/-- The state after `BeginConfig` on `demoIdle`. -/
def demoOpen : Sys := (BeginConfig demoIdle).1

/-- A configuration of identifier org1. -/
def cfgA : MSPConfig := { type := 0, Config := some [1, 0] }

/-- A second configuration of identifier org1, with another body. -/
def cfgA2 : MSPConfig := { type := 0, Config := some [1, 5] }

/-- A configuration of identifier org2. -/
def cfgB : MSPConfig := { type := 0, Config := some [2, 0] }

/-- A configuration of an unsupported type. -/
def cfgBad : MSPConfig := { type := 3, Config := some [1, 0] }

/-- A configuration whose provider cannot be set up. -/
def cfgNil : MSPConfig := { type := 0, Config := none }

/-- A configuration of identifier org3 that the manager rejects. -/
def cfgPoison : MSPConfig := { type := 0, Config := some [3, 13] }

/-- The state after `ProposeMSP cfgA` on `demoOpen`. -/
def demoOne : Sys := (ProposeMSP demoEnv demoOpen cfgA).1

/-! ## Lemmas on `ProposeMSP` -/

/-- With a proposal open, a call either fails and leaves the handler as it was, or writes the
entry of the new instance and rebuilds the manager. -/
theorem ProposeMSP_cases (env : Env) (s : Sys) (c : MSPConfig) (store : mspConfigStore)
    (h : s.bh.pendingConfig = some store) :
    ((ProposeMSP env s c).1.bh = s.bh ∧ s.next ≤ (ProposeMSP env s c).1.next ∧
      ∃ e, (ProposeMSP env s c).2 = .done (none, some e)) ∨
    (∃ mspID, c.type = env.FABRIC ∧ env.NewBccspMsp s.next = none ∧
      env.Setup s.next c = none ∧
      env.GetIdentifier ⟨s.next, c⟩ = .ok mspID ∧
      (∀ p, store.idMap.lookup mspID = some p → p.mspConfig = c) ∧
      (ProposeMSP env s c).1 =
        { next := s.next + 2,
          bh := { s.bh with pendingConfig := some (rebuilt env s.next store mspID c) } } ∧
      (ProposeMSP env s c).2 =
        .done (if (env.mgrSetup (s.next + 1)
              (mspList env (s.next + 1) (rebuilt env s.next store mspID c).idMap)).isSome
          then (none, env.mgrSetup (s.next + 1)
              (mspList env (s.next + 1) (rebuilt env s.next store mspID c).idMap))
          else (some ⟨s.next, c⟩, none))) := by
  unfold ProposeMSP
  by_cases ht : c.type = env.FABRIC
  · simp only [ne_eq, ht, not_true_eq_false, if_false]
    cases hn : env.NewBccspMsp s.next with
    | some err => left; simp
    | none =>
      cases hs : env.Setup s.next c with
      | some err => left; simp
      | none =>
        cases hg : env.GetIdentifier ⟨s.next, c⟩ with
        | error err => left; simp
        | ok mspID =>
          simp only [h]
          cases hl : store.idMap.lookup mspID with
          | none =>
            right
            refine ⟨mspID, ?_, ?_, ?_, ?_, ?_, rfl, rfl⟩ <;> first | trivial | rfl | skip
            intro p hp; rw [hl] at hp; cases hp
          | some p =>
            by_cases hc : p.mspConfig = c
            · right
              simp only [ne_eq, hc, not_true_eq_false, if_false]
              refine ⟨mspID, ?_, ?_, ?_, ?_, ?_, rfl, rfl⟩ <;> first | trivial | rfl | skip
              intro q hq; rw [hl] at hq; cases hq; exact hc
            · left; simp [hc]
  · left; simp [ht]

/-- No call of `ProposeMSP`, in any state, touches the committed manager. -/
theorem ProposeMSP_MSPManager (env : Env) (s : Sys) (c : MSPConfig) :
    (ProposeMSP env s c).1.bh.MSPManager = s.bh.MSPManager := by
  unfold ProposeMSP
  dsimp only
  repeat' split
  all_goals rfl

/-- With a proposal open, `ProposeMSP` returns normally, and the handler still points to
the same store object. -/
theorem ProposeMSP_open (env : Env) (s : Sys) (c : MSPConfig) (store : mspConfigStore)
    (h : s.bh.pendingConfig = some store) :
    (∃ v, (ProposeMSP env s c).2 = .done v) ∧
    ∃ store2, (ProposeMSP env s c).1.bh.pendingConfig = some store2 ∧
      store2.ref = store.ref := by
  rcases ProposeMSP_cases env s c store h with ⟨hbh, _, e, he⟩ | ⟨mspID, _, _, _, _, _, hst, hres⟩
  · exact ⟨⟨_, he⟩, store, by rw [hbh, h], rfl⟩
  · exact ⟨⟨_, hres⟩, rebuilt env s.next store mspID c, by rw [hst], rfl⟩

/-- A sequence of `ProposeMSP` calls on an open proposal: every call returns normally, the
handler still points to the same store object, the committed manager is untouched. -/
theorem proposeAll_open (env : Env) (cfgs : List MSPConfig) :
    ∀ (s : Sys) (store : mspConfigStore), s.bh.pendingConfig = some store →
      (∀ r ∈ (proposeAll env s cfgs).2, ∃ v, r = .done v) ∧
      (proposeAll env s cfgs).1.bh.MSPManager = s.bh.MSPManager ∧
      ∃ store2, (proposeAll env s cfgs).1.bh.pendingConfig = some store2 ∧
        store2.ref = store.ref := by
  induction cfgs with
  | nil =>
    intro s store h
    exact ⟨by simp [proposeAll], rfl, store, h, rfl⟩
  | cons c cs ih =>
    intro s store h
    obtain ⟨hdone, store1, h1, hr1⟩ := ProposeMSP_open env s c store h
    obtain ⟨hall, hmgr, store2, h2, hr2⟩ := ih (ProposeMSP env s c).1 store1 h1
    refine ⟨?_, ?_, store2, h2, hr2.trans hr1⟩
    · intro r hr
      simp only [proposeAll, List.mem_cons] at hr
      rcases hr with rfl | hr
      · exact hdone
      · exact hall r hr
    · simp only [proposeAll]
      rw [hmgr, ProposeMSP_MSPManager]

/-- With no proposal open, `ProposeMSP` opens none. -/
theorem ProposeMSP_closed (env : Env) (s : Sys) (c : MSPConfig)
    (h : s.bh.pendingConfig = none) : (ProposeMSP env s c).1.bh.pendingConfig = none := by
  unfold ProposeMSP
  dsimp only
  repeat' split
  all_goals first | exact h | simp_all

/-- The store written by lines 97-115 is never stale. -/
theorem rebuilt_neverStale (env : Env) (n : Nat) (store : mspConfigStore) (mspID : String)
    (c : MSPConfig) : NeverStale (rebuilt env n store mspID c) := by
  right
  exact ⟨_, _, rfl, rfl, (env.range_perm _ _).map _⟩

/-- Erasing the key of the first entry drops that entry. -/
theorem kerase_cons_self (k : String) (v : pendingMSPConfig)
    (l : List (Sigma fun _ : String => pendingMSPConfig)) :
    List.kerase k (⟨k, v⟩ :: l) = l :=
  List.kerase_cons_eq rfl

/-- The entries of the store written by lines 97-115: the new entry, then the former
entries of the other identifiers. -/
theorem rebuilt_entries (env : Env) (n : Nat) (store : mspConfigStore) (mspID : String)
    (c : MSPConfig) :
    (rebuilt env n store mspID c).idMap.entries =
      ⟨mspID, { mspConfig := c, msp := ⟨n, c⟩ }⟩ :: List.kerase mspID store.idMap.entries := by
  simp [rebuilt, AList.insert_entries]

/-- One call preserves the invariant of the reachable states. -/
theorem step_wellFormed (env : Env) (s : Sys) (call : Call) (h : WellFormed s) :
    WellFormed (step env s call) := by
  cases call with
  | begin =>
    cases hpc : s.bh.pendingConfig with
    | none =>
      intro store hst
      simp only [step, BeginConfig, hpc, Option.some.injEq] at hst
      subst hst
      exact ⟨Or.inl rfl, by simp, by simp⟩
    | some st =>
      have : step env s .begin = s := by simp [step, BeginConfig, hpc]
      rw [this]; exact h
  | commit =>
    cases hpc : s.bh.pendingConfig with
    | none =>
      have : step env s .commit = s := by simp [step, CommitConfig, hpc]
      rw [this]; exact h
    | some st =>
      intro store hst
      simp [step, CommitConfig, hpc] at hst
  | rollback =>
    intro store hst
    simp [step, RollbackConfig] at hst
  | propose c =>
    cases hpc : s.bh.pendingConfig with
    | none =>
      intro store hst
      have := ProposeMSP_closed env s c hpc
      simp only [step] at hst
      rw [this] at hst; cases hst
    | some st =>
      obtain ⟨hns, hlt, hnd⟩ := h st hpc
      rcases ProposeMSP_cases env s c st hpc with
        ⟨hbh, hle, _⟩ | ⟨mspID, _, _, _, _, _, hst, _⟩
      · intro store hstore
        simp only [step] at hstore ⊢
        rw [hbh, hpc] at hstore
        cases hstore
        exact ⟨hns, fun e he => lt_of_lt_of_le (hlt e he) hle, hnd⟩
      · intro store hstore
        simp only [step] at hstore ⊢
        rw [hst] at hstore ⊢
        simp only [Option.some.injEq] at hstore
        subst hstore
        have hsub : (List.kerase mspID st.idMap.entries).Sublist st.idMap.entries :=
          List.kerase_sublist _ _
        refine ⟨rebuilt_neverStale env s.next st mspID c, ?_, ?_⟩
        · intro e he
          rw [rebuilt_entries] at he
          rcases List.mem_cons.1 he with rfl | he
          · show s.next < s.next + 2
            omega
          · have := hlt e (hsub.subset he)
            show e.2.msp.ref < s.next + 2
            omega
        · rw [rebuilt_entries, List.map_cons, List.nodup_cons]
          refine ⟨?_, hnd.sublist (hsub.map _)⟩
          intro hmem
          obtain ⟨e, he, hre⟩ := List.mem_map.1 hmem
          have := hlt e (hsub.subset he)
          simp only at hre
          omega

/-- Every sequence of calls preserves the invariant of the reachable states. -/
theorem run_wellFormed (env : Env) (calls : List Call) :
    ∀ s : Sys, WellFormed s → WellFormed (run env s calls) := by
  induction calls with
  | nil => intro s h; exact h
  | cons call rest ih =>
    intro s h
    exact ih (step env s call) (step_wellFormed env s call h)

/-- The path through lines 93-119 that writes the entry: the provider is built, reports
`mspID`, and the map holds no other configuration under `mspID`. -/
theorem ProposeMSP_insert (env : Env) (s : Sys) (c : MSPConfig) (store : mspConfigStore)
    (mspID : String)
    (hopen : s.bh.pendingConfig = some store)
    (ht : c.type = env.FABRIC)
    (hn : env.NewBccspMsp s.next = none)
    (hs : env.Setup s.next c = none)
    (hid : env.GetIdentifier ⟨s.next, c⟩ = .ok mspID)
    (hcompat : ∀ p, store.idMap.lookup mspID = some p → p.mspConfig = c) :
    ProposeMSP env s c =
      ({ next := s.next + 2,
         bh := { s.bh with pendingConfig := some (rebuilt env s.next store mspID c) } },
       .done (if (env.mgrSetup (s.next + 1)
              (mspList env (s.next + 1) (rebuilt env s.next store mspID c).idMap)).isSome
          then (none, env.mgrSetup (s.next + 1)
              (mspList env (s.next + 1) (rebuilt env s.next store mspID c).idMap))
          else (some ⟨s.next, c⟩, none))) := by
  cases hl : store.idMap.lookup mspID with
  | none =>
    simp only [ProposeMSP, ne_eq, ht, not_true_eq_false, if_false, hn, hs, hid, hopen, hl]
    rfl
  | some p =>
    have hc := hcompat p hl
    simp only [ProposeMSP, ne_eq, ht, not_true_eq_false, if_false, hn, hs, hid, hopen, hl, hc]
    rfl

/-- A sequence of `ProposeMSP` calls that all succeed, on an open store whose instances are
among `acc` and stored under their own identifiers: afterwards the same holds with the
returned instances added, every returned instance has its identifier in the map, and,
unless the sequence is empty, the proposed manager was set up, with success, with exactly
the instances of the map. -/
theorem proposeAll_success (env : Env) (n0 : Nat) (cfgs : List MSPConfig) :
    ∀ (s : Sys) (store : mspConfigStore) (insts acc : List MSP),
      s.bh.pendingConfig = some store →
      n0 ≤ s.next →
      (∀ e ∈ store.idMap.entries,
        e.2.msp ∈ acc ∧ env.GetIdentifier e.2.msp = .ok e.1 ∧ n0 ≤ e.2.msp.ref) →
      (∀ i ∈ acc, ∃ k, env.GetIdentifier i = .ok k ∧ k ∈ store.idMap) →
      (proposeAll env s cfgs).2 = insts.map (fun i => .done (some i, none)) →
      ∃ store2, (proposeAll env s cfgs).1.bh.pendingConfig = some store2 ∧
        (∀ e ∈ store2.idMap.entries,
          e.2.msp ∈ acc ++ insts ∧ env.GetIdentifier e.2.msp = .ok e.1 ∧ n0 ≤ e.2.msp.ref) ∧
        (∀ i ∈ acc ++ insts, ∃ k, env.GetIdentifier i = .ok k ∧ k ∈ store2.idMap) ∧
        insts.map (fun i => i.conf) = cfgs ∧
        ((cfgs = [] ∧ store2 = store) ∨
          ∃ m l, store2.proposedMgr = some m ∧ m.msps = some l ∧ m.up = true ∧
            l.Perm (store2.idMap.entries.map (fun e => e.2.msp))) := by
  induction cfgs with
  | nil =>
    intro s store insts acc hopen _ hent hacc hok
    have hi : insts = [] := by
      cases insts with
      | nil => rfl
      | cons a t => simp [proposeAll] at hok
    subst hi
    exact ⟨store, hopen, by simpa using hent, by simpa using hacc, rfl, Or.inl ⟨rfl, rfl⟩⟩
  | cons c cs ih =>
    intro s store insts acc hopen hn0 hent hacc hok
    cases insts with
    | nil => simp [proposeAll] at hok
    | cons i is =>
      simp only [proposeAll, List.map_cons, List.cons.injEq] at hok
      obtain ⟨hfirst, hrest⟩ := hok
      rcases ProposeMSP_cases env s c store hopen with
        ⟨_, _, e, he⟩ | ⟨mspID, _, _, _, hg, _, hst, hres⟩
      · rw [he] at hfirst; cases hfirst
      · rw [hres] at hfirst
        have herr : env.mgrSetup (s.next + 1)
            (mspList env (s.next + 1) (rebuilt env s.next store mspID c).idMap) = none := by
          cases hm : env.mgrSetup (s.next + 1)
              (mspList env (s.next + 1) (rebuilt env s.next store mspID c).idMap) with
          | none => rfl
          | some e => rw [hm] at hfirst; simp at hfirst
        have hi : i = ⟨s.next, c⟩ := by
          rw [herr] at hfirst
          simp only [Option.isSome_none, Bool.false_eq_true, if_false, Ret.done.injEq,
            Prod.mk.injEq, Option.some.injEq, and_true] at hfirst
          exact hfirst.symm
        have hopen1 : (ProposeMSP env s c).1.bh.pendingConfig
            = some (rebuilt env s.next store mspID c) := by rw [hst]
        have hnext1 : n0 ≤ (ProposeMSP env s c).1.next := by rw [hst]; show n0 ≤ s.next + 2; omega
        have hsub : (List.kerase mspID store.idMap.entries).Sublist store.idMap.entries :=
          List.kerase_sublist _ _
        have hent1 : ∀ e ∈ (rebuilt env s.next store mspID c).idMap.entries,
            e.2.msp ∈ acc ++ [i] ∧ env.GetIdentifier e.2.msp = .ok e.1 ∧ n0 ≤ e.2.msp.ref := by
          intro e he
          rw [rebuilt_entries] at he
          rcases List.mem_cons.1 he with rfl | he
          · exact ⟨by simp [hi], hg, hn0⟩
          · obtain ⟨h1, h2, h3⟩ := hent e (hsub.subset he)
            exact ⟨List.mem_append_left _ h1, h2, h3⟩
        have hacc1 : ∀ j ∈ acc ++ [i], ∃ k, env.GetIdentifier j = .ok k ∧
            k ∈ (rebuilt env s.next store mspID c).idMap := by
          intro j hj
          rcases List.mem_append.1 hj with hj | hj
          · obtain ⟨k, hk1, hk2⟩ := hacc j hj
            exact ⟨k, hk1, by simp only [rebuilt, AList.mem_insert]; exact Or.inr hk2⟩
          · have : j = i := by simpa using hj
            subst this
            exact ⟨mspID, by rw [hi]; exact hg, by simp [rebuilt, AList.mem_insert]⟩
        obtain ⟨store2, h2, hent2, hacc2, hconf, hmgr⟩ :=
          ih (ProposeMSP env s c).1 _ is (acc ++ [i]) hopen1 hnext1 hent1 hacc1 hrest
        have happ : acc ++ [i] ++ is = acc ++ i :: is := by simp
        rw [happ] at hent2 hacc2
        refine ⟨store2, h2, hent2, hacc2, ?_, Or.inr ?_⟩
        · simp [hconf, hi]
        · rcases hmgr with ⟨_, hs2⟩ | hq
          · subst hs2
            refine ⟨_, _, rfl, rfl, ?_, (env.range_perm _ _).map _⟩
            show (env.mgrSetup (s.next + 1)
              (mspList env (s.next + 1) (rebuilt env s.next store mspID c).idMap)).isNone = true
            rw [herr]; rfl
          · exact hq

/-! ## The claims -/

/-- C1 (isolation): from a handler with no open proposal, `BeginConfig`, then `ProposeMSP`
on each configuration of any finite sequence, then `RollbackConfig`, all return normally
and leave the handler exactly as it was: no open proposal, the same committed manager. -/
theorem isolation (env : Env) (s : Sys) (cfgs : List MSPConfig)
    (h : s.bh.pendingConfig = none) :
    (BeginConfig s).2 = .done () ∧
    (∀ r ∈ (proposeAll env (BeginConfig s).1 cfgs).2, ∃ v, r = .done v) ∧
    (RollbackConfig (proposeAll env (BeginConfig s).1 cfgs).1).2 = .done () ∧
    (RollbackConfig (proposeAll env (BeginConfig s).1 cfgs).1).1.bh.pendingConfig = none ∧
    (RollbackConfig (proposeAll env (BeginConfig s).1 cfgs).1).1.bh.MSPManager
      = s.bh.MSPManager ∧
    (RollbackConfig (proposeAll env (BeginConfig s).1 cfgs).1).1.bh = s.bh := by
  have hb : (BeginConfig s).1.bh.pendingConfig =
      some { ref := s.next, idMap := ∅, proposedMgr := none } := by
    simp [BeginConfig, h]
  have hbm : (BeginConfig s).1.bh.MSPManager = s.bh.MSPManager := by
    simp [BeginConfig, h]
  obtain ⟨hall, hmgr, -⟩ := proposeAll_open env cfgs (BeginConfig s).1 _ hb
  have hm : (RollbackConfig (proposeAll env (BeginConfig s).1 cfgs).1).1.bh.MSPManager
      = s.bh.MSPManager := by
    simp only [RollbackConfig]; rw [hmgr, hbm]
  refine ⟨by simp [BeginConfig, h], hall, rfl, rfl, hm, ?_⟩
  cases hs : s.bh with
  | mk pc m =>
    rw [hs] at h hm
    simp only at h hm
    simp only [RollbackConfig] at hm ⊢
    rw [hm, h]

/-- Witness of C1: a failing and two succeeding proposals, then a rollback. -/
theorem isolation_witness :
    demoIdle.bh.pendingConfig = none ∧
    (RollbackConfig (proposeAll demoEnv (BeginConfig demoIdle).1 [cfgA, cfgBad, cfgB]).1).1.bh
      = demoIdle.bh :=
  ⟨by decide, (isolation demoEnv demoIdle [cfgA, cfgBad, cfgB] (by decide)).2.2.2.2.2⟩

/-- C3 (conflict detection): with a proposal open whose store maps `mspID` to the entry
`p`, a call `ProposeMSP c2` whose provider is built, reports `mspID`, and whose
configuration differs from the stored one returns the conflict error and no instance; the
handler is unchanged, so the store has the same map (same keys, the entry under `mspID`
is still `p`) and the same proposed manager. -/
theorem conflict_detection (env : Env) (s : Sys) (store : mspConfigStore) (c2 : MSPConfig)
    (mspID : String) (p : pendingMSPConfig)
    (hopen : s.bh.pendingConfig = some store)
    (hp : store.idMap.lookup mspID = some p)
    (ht : c2.type = env.FABRIC)
    (hn : env.NewBccspMsp s.next = none)
    (hs : env.Setup s.next c2 = none)
    (hid : env.GetIdentifier ⟨s.next, c2⟩ = .ok mspID)
    (hne : c2 ≠ p.mspConfig) :
    (ProposeMSP env s c2).2 = .done (none,
      some ("Attempted to define two different versions of MSP: " ++ mspID)) ∧
    (ProposeMSP env s c2).1.bh = s.bh ∧
    ∃ store2, (ProposeMSP env s c2).1.bh.pendingConfig = some store2 ∧
      store2.ref = store.ref ∧
      store2.idMap = store.idMap ∧
      store2.idMap.keys = store.idMap.keys ∧
      store2.idMap.lookup mspID = some p ∧
      store2.proposedMgr = store.proposedMgr := by
  have hne2 : ¬ p.mspConfig = c2 := fun h => hne h.symm
  have key : ProposeMSP env s c2 = ({ s with next := s.next + 1 }, .done (none,
      some ("Attempted to define two different versions of MSP: " ++ mspID))) := by
    simp [ProposeMSP, ht, hn, hs, hid, hopen, hp, hne2]
  rw [key]
  exact ⟨rfl, rfl, store, hopen, rfl, rfl, rfl, hp, rfl⟩

/-- Witness of C3: org1 is proposed with one body, then with another. -/
theorem conflict_detection_witness :
    (ProposeMSP demoEnv demoOne cfgA2).2 = .done (none,
      some ("Attempted to define two different versions of MSP: " ++ "org1")) ∧
    (ProposeMSP demoEnv demoOne cfgA2).1.bh = demoOne.bh :=
  ⟨(conflict_detection demoEnv demoOne
      { ref := 1, idMap := (∅ : IdMap).insert "org1" ⟨cfgA, ⟨2, cfgA⟩⟩,
        proposedMgr := some ⟨3, some [⟨2, cfgA⟩], true⟩ }
      cfgA2 "org1" ⟨cfgA, ⟨2, cfgA⟩⟩
      (by decide) (by decide) (by decide) (by decide) (by decide) (by decide) (by decide)).1,
   (conflict_detection demoEnv demoOne
      { ref := 1, idMap := (∅ : IdMap).insert "org1" ⟨cfgA, ⟨2, cfgA⟩⟩,
        proposedMgr := some ⟨3, some [⟨2, cfgA⟩], true⟩ }
      cfgA2 "org1" ⟨cfgA, ⟨2, cfgA⟩⟩
      (by decide) (by decide) (by decide) (by decide) (by decide) (by decide) (by decide)).2.1⟩

/-- C5 (unsupported type rejection): a configuration whose type is not `FABRIC` makes
`ProposeMSP` return the type error and no instance and leaves the whole state unchanged,
in particular an open store; the result is the same for every configuration of that type,
whatever its body. -/
theorem unsupported_type_rejection (env : Env) (s : Sys) (c : MSPConfig)
    (h : c.type ≠ env.FABRIC) :
    ProposeMSP env s c = (s, .done (none,
      some ("Setup error: unsupported msp type " ++ toString c.type))) ∧
    (∀ store, s.bh.pendingConfig = some store →
      (ProposeMSP env s c).1.bh.pendingConfig = some store) ∧
    (∀ body, ProposeMSP env s { type := c.type, Config := body } = ProposeMSP env s c) := by
  have key : ∀ c2 : MSPConfig, c2.type ≠ env.FABRIC → ProposeMSP env s c2 = (s, .done (none,
      some ("Setup error: unsupported msp type " ++ toString c2.type))) := by
    intro c2 h2
    simp [ProposeMSP, h2]
  refine ⟨key c h, ?_, ?_⟩
  · intro store hst
    rw [key c h]; exact hst
  · intro body
    rw [key c h, key ⟨c.type, body⟩ h]

/-- Witness of C5: a configuration of type 3 proposed to an open proposal. -/
theorem unsupported_type_rejection_witness :
    cfgBad.type ≠ demoEnv.FABRIC ∧
    ProposeMSP demoEnv demoOne cfgBad = (demoOne, .done (none,
      some ("Setup error: unsupported msp type " ++ toString cfgBad.type))) :=
  ⟨by decide, (unsupported_type_rejection demoEnv demoOne cfgBad (by decide)).1⟩

/-- C6 (no-open-proposal guard): `BeginConfig` panics exactly when a proposal is open and
otherwise opens a proposal with an empty map and no proposed manager, the committed
manager being kept; `CommitConfig` panics exactly when no proposal is open; a panicking
call leaves the state as it was. -/
theorem open_proposal_guard (s : Sys) :
    ((∃ msg, (BeginConfig s).2 = .panic msg) ↔ s.bh.pendingConfig ≠ none) ∧
    ((BeginConfig s).2 = .done () ↔ s.bh.pendingConfig = none) ∧
    (s.bh.pendingConfig = none →
      (BeginConfig s).1.bh =
        { pendingConfig := some { ref := s.next, idMap := ∅, proposedMgr := none },
          MSPManager := s.bh.MSPManager }) ∧
    ((∃ msg, (BeginConfig s).2 = .panic msg) → (BeginConfig s).1 = s) ∧
    ((∃ msg, (CommitConfig s).2 = .panic msg) ↔ s.bh.pendingConfig = none) ∧
    ((CommitConfig s).2 = .done () ↔ s.bh.pendingConfig ≠ none) ∧
    ((∃ msg, (CommitConfig s).2 = .panic msg) → (CommitConfig s).1 = s) := by
  cases hpc : s.bh.pendingConfig with
  | none => simp [BeginConfig, CommitConfig, hpc]
  | some store => simp [BeginConfig, CommitConfig, hpc]

/-- Witness of C6: `BeginConfig` on an idle handler. -/
theorem open_proposal_guard_witness :
    demoIdle.bh.pendingConfig = none ∧
    (BeginConfig demoIdle).1.bh =
      { pendingConfig := some { ref := demoIdle.next, idMap := ∅, proposedMgr := none },
        MSPManager := demoIdle.bh.MSPManager } :=
  ⟨by decide, (open_proposal_guard demoIdle).2.2.1 (by decide)⟩

/-- C7: `RollbackConfig` always returns normally; it closes the proposal (dropping the
store), keeps the committed manager and allocates nothing; with no proposal open it
changes nothing; applying it twice is the same as applying it once. -/
theorem rollback_total (s : Sys) :
    (RollbackConfig s).2 = .done () ∧
    (RollbackConfig s).1 =
      { next := s.next, bh := { pendingConfig := none, MSPManager := s.bh.MSPManager } } ∧
    (s.bh.pendingConfig = none → (RollbackConfig s).1 = s) ∧
    RollbackConfig (RollbackConfig s).1 = RollbackConfig s := by
  refine ⟨rfl, rfl, ?_, rfl⟩
  intro h
  cases s with
  | mk n bh =>
    cases bh with
    | mk pc m =>
      simp only at h
      simp [RollbackConfig, h]

/-- Witness of C7: `RollbackConfig` on an idle handler. -/
theorem rollback_total_witness :
    demoIdle.bh.pendingConfig = none ∧ (RollbackConfig demoIdle).1 = demoIdle :=
  ⟨by decide, (rollback_total demoIdle).2.2.1 (by decide)⟩

/-- C8: with a proposal open, one call of `ProposeMSP` returns normally, leaves the handler
pointing to the same store object and leaves the committed manager as it was; no call other
than `CommitConfig` changes the committed manager, in any state. -/
theorem propose_frame (env : Env) (s : Sys) (c : MSPConfig) (store : mspConfigStore)
    (h : s.bh.pendingConfig = some store) :
    (∃ v, (ProposeMSP env s c).2 = .done v) ∧
    (∃ store2, (ProposeMSP env s c).1.bh.pendingConfig = some store2 ∧
      store2.ref = store.ref) ∧
    (ProposeMSP env s c).1.bh.MSPManager = s.bh.MSPManager ∧
    (∀ (t : Sys) (call : Call), call ≠ .commit →
      (step env t call).bh.MSPManager = t.bh.MSPManager) := by
  obtain ⟨h1, h2⟩ := ProposeMSP_open env s c store h
  refine ⟨h1, h2, ProposeMSP_MSPManager env s c, ?_⟩
  intro t call hc
  cases call with
  | begin =>
    cases hpc : t.bh.pendingConfig <;> simp [step, BeginConfig, hpc]
  | propose c2 => exact ProposeMSP_MSPManager env t c2
  | commit => exact absurd rfl hc
  | rollback => rfl

/-- Witness of C8: a proposal that fails in the manager setup. -/
theorem propose_frame_witness :
    (∃ store2, (ProposeMSP demoEnv demoOne cfgPoison).1.bh.pendingConfig = some store2 ∧
      store2.ref = 1) ∧
    (ProposeMSP demoEnv demoOne cfgPoison).1.bh.MSPManager = some demoMgr :=
  ⟨(propose_frame demoEnv demoOne cfgPoison
      { ref := 1, idMap := (∅ : IdMap).insert "org1" ⟨cfgA, ⟨2, cfgA⟩⟩,
        proposedMgr := some ⟨3, some [⟨2, cfgA⟩], true⟩ } (by decide)).2.1,
   (propose_frame demoEnv demoOne cfgPoison
      { ref := 1, idMap := (∅ : IdMap).insert "org1" ⟨cfgA, ⟨2, cfgA⟩⟩,
        proposedMgr := some ⟨3, some [⟨2, cfgA⟩], true⟩ } (by decide)).2.2.1⟩

/-- C9 (never stale): in every state reached from a handler with no open proposal by any
sequence of `BeginConfig`, `ProposeMSP`, `CommitConfig` and `RollbackConfig` calls, the
proposed manager of an open store is absent, or it is a manager whose `Setup` was called
with a list that is a rearrangement of the instances of the entries of `idMap`: as many
as there are identifiers, each entry's instance once, and no instance twice. -/
theorem never_stale (env : Env) (s0 : Sys) (calls : List Call) (store : mspConfigStore)
    (h0 : s0.bh.pendingConfig = none)
    (h : (run env s0 calls).bh.pendingConfig = some store) :
    store.proposedMgr = none ∨
    ∃ m l, store.proposedMgr = some m ∧ m.msps = some l ∧
      l.Perm (store.idMap.entries.map (fun e => e.2.msp)) ∧
      l.length = store.idMap.keys.length ∧
      store.idMap.keys.Nodup ∧
      l.Nodup := by
  have hwf0 : WellFormed s0 := by
    intro st hst; rw [h0] at hst; cases hst
  obtain ⟨hns, -, hnd⟩ := run_wellFormed env calls s0 hwf0 store h
  rcases hns with hnone | ⟨m, l, hm, hl, hperm⟩
  · exact Or.inl hnone
  · refine Or.inr ⟨m, l, hm, hl, hperm, ?_, store.idMap.keys_nodup, ?_⟩
    · rw [hperm.length_eq]; simp [AList.keys, List.keys]
    · refine hperm.nodup_iff.2 ?_
      have : (store.idMap.entries.map (fun e => e.2.msp)).map (fun i => i.ref)
          = store.idMap.entries.map (fun e => e.2.msp.ref) := by
        simp [List.map_map]
      rw [← this] at hnd
      exact List.Nodup.of_map _ hnd

/-- Witness of C9: the state after a commit, a new proposal, two successful proposals, a
conflicting one and one whose manager setup fails. -/
theorem never_stale_witness :
    ∃ store, (run demoEnv demoIdle
        [.begin, .propose cfgA, .commit, .begin, .propose cfgB, .propose cfgA2,
         .propose cfgA, .propose cfgPoison]).bh.pendingConfig = some store ∧
      ∃ m l, store.proposedMgr = some m ∧ m.msps = some l ∧
        l.Perm (store.idMap.entries.map (fun e => e.2.msp)) ∧ l.length = 3 :=
  ⟨{ ref := 4,
     idMap := ((((∅ : IdMap).insert "org2" ⟨cfgB, ⟨5, cfgB⟩⟩).insert
        "org1" ⟨cfgA2, ⟨7, cfgA2⟩⟩).insert "org3" ⟨cfgPoison, ⟨10, cfgPoison⟩⟩),
     proposedMgr := some ⟨11, some [⟨5, cfgB⟩, ⟨7, cfgA2⟩, ⟨10, cfgPoison⟩], false⟩ },
   by decide,
   (never_stale demoEnv demoIdle
      [.begin, .propose cfgA, .commit, .begin, .propose cfgB, .propose cfgA2,
       .propose cfgA, .propose cfgPoison] _ (by decide) (by decide)).resolve_left
        (by decide) |>.imp fun m hm => hm.imp fun l hl =>
          ⟨hl.1, hl.2.1, hl.2.2.1, by rw [hl.2.2.2.1]; decide⟩⟩

/-- C10, as stated, fails: org1 is stored with the instance at address 2; after proposing
the same configuration again the instance stored under org1 is not that one. -/
theorem reproposal_instance_counterexample :
    (demoOne.bh.pendingConfig.bind fun st => st.idMap.lookup "org1")
      = some ⟨cfgA, ⟨2, cfgA⟩⟩ ∧
    demoEnv.GetIdentifier ⟨demoOne.next, cfgA⟩ = .ok "org1" ∧
    (ProposeMSP demoEnv demoOne cfgA).2 = .done (some ⟨4, cfgA⟩, none) ∧
    ¬ ((ProposeMSP demoEnv demoOne cfgA).1.bh.pendingConfig.bind
        fun st => (st.idMap.lookup "org1").map fun p => p.msp) = some ⟨2, cfgA⟩ := by
  decide

/-- C10, amended: on an idempotent re-proposal (the identifier is present in the map with an
equal configuration) `ProposeMSP` overwrites the entry: the instance stored under the
identifier after the call is the newly built one (which differs from the one stored before,
created earlier), the stored configuration is the proposed one, the other entries are kept,
and the newly built instance is returned to the caller when the manager setup succeeds. -/
theorem reproposal_overwrites (env : Env) (s : Sys) (store : mspConfigStore) (c : MSPConfig)
    (mspID : String) (p : pendingMSPConfig)
    (hopen : s.bh.pendingConfig = some store)
    (hp : store.idMap.lookup mspID = some p)
    (heq : p.mspConfig = c)
    (ht : c.type = env.FABRIC)
    (hn : env.NewBccspMsp s.next = none)
    (hs : env.Setup s.next c = none)
    (hid : env.GetIdentifier ⟨s.next, c⟩ = .ok mspID) :
    ∃ store2, (ProposeMSP env s c).1.bh.pendingConfig = some store2 ∧
      store2.idMap.lookup mspID = some { mspConfig := c, msp := ⟨s.next, c⟩ } ∧
      (p.msp.ref < s.next → (⟨s.next, c⟩ : MSP) ≠ p.msp) ∧
      (∀ k, k ≠ mspID → store2.idMap.lookup k = store.idMap.lookup k) ∧
      (env.mgrSetup (s.next + 1) (mspList env (s.next + 1) store2.idMap) = none →
        (ProposeMSP env s c).2 = .done (some ⟨s.next, c⟩, none)) := by
  have hcompat : ∀ q, store.idMap.lookup mspID = some q → q.mspConfig = c := by
    intro q hq; rw [hp] at hq; cases hq; exact heq
  rw [ProposeMSP_insert env s c store mspID hopen ht hn hs hid hcompat]
  refine ⟨rebuilt env s.next store mspID c, rfl, ?_, ?_, ?_, ?_⟩
  · simp [rebuilt, AList.lookup_insert]
  · intro hlt hcontra
    rw [← hcontra] at hlt
    exact absurd hlt (lt_irrefl _)
  · intro k hk
    simp [rebuilt, AList.lookup_insert_ne hk]
  · intro hnone
    simp [hnone]

/-- Witness of C10, amended: org1 proposed twice with the same configuration. -/
theorem reproposal_overwrites_witness :
    ∃ store2, (ProposeMSP demoEnv demoOne cfgA).1.bh.pendingConfig = some store2 ∧
      store2.idMap.lookup "org1" = some { mspConfig := cfgA, msp := ⟨demoOne.next, cfgA⟩ } :=
  (reproposal_overwrites demoEnv demoOne
      { ref := 1, idMap := (∅ : IdMap).insert "org1" ⟨cfgA, ⟨2, cfgA⟩⟩,
        proposedMgr := some ⟨3, some [⟨2, cfgA⟩], true⟩ }
      cfgA "org1" ⟨cfgA, ⟨2, cfgA⟩⟩
      (by decide) (by decide) (by decide) (by decide) (by decide) (by decide)
      (by decide)).imp fun _ h => ⟨h.1, h.2.1⟩

/-- C4 (idempotent re-proposal): with a proposal open, if `ProposeMSP c` succeeds with an
instance of identifier `mspID`, and the environment behaves the same on the same inputs
(creation, instance setup and identifier do not depend on the address of the object, the
manager setup depends only on the configurations of the instances it is given), then a
following `ProposeMSP c2` with `c2` equal to `c` succeeds as well, and the map has the same
identifiers after the second call as before it, `mspID` among them exactly once. -/
theorem idempotent_reproposal (env : Env) (s : Sys) (store : mspConfigStore)
    (c c2 : MSPConfig) (inst : MSP) (mspID : String)
    (hopen : s.bh.pendingConfig = some store)
    (hfirst : (ProposeMSP env s c).2 = .done (some inst, none))
    (hident : env.GetIdentifier inst = .ok mspID)
    (heq : c2 = c)
    (hNew : ∀ r r2, env.NewBccspMsp r = env.NewBccspMsp r2)
    (hSetup : ∀ r r2 cfg, env.Setup r cfg = env.Setup r2 cfg)
    (hId : ∀ i j : MSP, i.conf = j.conf → env.GetIdentifier i = env.GetIdentifier j)
    (hMgr : ∀ r r2 l l2, (l.map fun i => i.conf).Perm (l2.map fun i => i.conf) →
      env.mgrSetup r l = env.mgrSetup r2 l2) :
    ∃ inst2 store1 store2,
      (ProposeMSP env (ProposeMSP env s c).1 c2).2 = .done (some inst2, none) ∧
      inst2.conf = c2 ∧
      (ProposeMSP env s c).1.bh.pendingConfig = some store1 ∧
      (ProposeMSP env (ProposeMSP env s c).1 c2).1.bh.pendingConfig = some store2 ∧
      store2.idMap.keys = store1.idMap.keys ∧
      (∀ k, k ∈ store2.idMap ↔ k ∈ store1.idMap) ∧
      store2.idMap.keys.count mspID = 1 ∧
      (store2.idMap.lookup mspID).map (fun p => p.mspConfig) = some c := by
  subst heq
  rcases ProposeMSP_cases env s c2 store hopen with
    ⟨_, _, e, he⟩ | ⟨mspID0, ht, hn, hs, hg, _, hst, hres⟩
  · rw [he] at hfirst; cases hfirst
  · rw [hres] at hfirst
    -- the first call succeeded: the manager setup returned no error
    have herr : env.mgrSetup (s.next + 1)
        (mspList env (s.next + 1) (rebuilt env s.next store mspID0 c2).idMap) = none := by
      cases hm : env.mgrSetup (s.next + 1)
          (mspList env (s.next + 1) (rebuilt env s.next store mspID0 c2).idMap) with
      | none => rfl
      | some e => rw [hm] at hfirst; simp at hfirst
    have hinst : inst = ⟨s.next, c2⟩ := by
      rw [herr] at hfirst
      simp only [Option.isSome_none, Bool.false_eq_true, if_false, Ret.done.injEq,
        Prod.mk.injEq, Option.some.injEq, and_true] at hfirst
      exact hfirst.symm
    have hidEq : mspID0 = mspID := by
      rw [hinst, hg] at hident
      cases hident; rfl
    subst hidEq
    -- the second call takes the writing path
    have hopen1 : (ProposeMSP env s c2).1.bh.pendingConfig
        = some (rebuilt env s.next store mspID0 c2) := by rw [hst]
    have hnext1 : (ProposeMSP env s c2).1.next = s.next + 2 := by rw [hst]
    have hn1 : env.NewBccspMsp (ProposeMSP env s c2).1.next = none := by
      rw [hNew _ s.next]; exact hn
    have hs1 : env.Setup (ProposeMSP env s c2).1.next c2 = none := by
      rw [hSetup _ s.next]; exact hs
    have hg1 : env.GetIdentifier ⟨(ProposeMSP env s c2).1.next, c2⟩ = .ok mspID0 := by
      exact (hId ⟨(ProposeMSP env s c2).1.next, c2⟩ ⟨s.next, c2⟩ rfl).trans hg
    have hlook : (rebuilt env s.next store mspID0 c2).idMap.lookup mspID0
        = some { mspConfig := c2, msp := ⟨s.next, c2⟩ } := by
      simp [rebuilt, AList.lookup_insert]
    have hcompat : ∀ p, (rebuilt env s.next store mspID0 c2).idMap.lookup mspID0 = some p →
        p.mspConfig = c2 := by
      intro p hp; rw [hlook] at hp; cases hp; rfl
    have hsecond := ProposeMSP_insert env (ProposeMSP env s c2).1 c2
      (rebuilt env s.next store mspID0 c2) mspID0 hopen1 ht hn1 hs1 hg1 hcompat
    -- the manager of the second call is given instances of the same configurations
    have hent : (rebuilt env (ProposeMSP env s c2).1.next
          (rebuilt env s.next store mspID0 c2) mspID0 c2).idMap.entries.map
            (fun e => e.2.msp.conf)
        = (rebuilt env s.next store mspID0 c2).idMap.entries.map (fun e => e.2.msp.conf) := by
      rw [rebuilt_entries, rebuilt_entries, kerase_cons_self]
      rfl
    have hconf : ∀ (r : Nat) (m : IdMap),
        ((mspList env r m).map fun i => i.conf).Perm (m.entries.map fun e => e.2.msp.conf) := by
      intro r m
      have := ((env.range_perm r m.entries).map (fun e => e.2.msp)).map (fun i => i.conf)
      simpa [mspList, List.map_map] using this
    have herr2 : env.mgrSetup ((ProposeMSP env s c2).1.next + 1)
        (mspList env ((ProposeMSP env s c2).1.next + 1)
          (rebuilt env (ProposeMSP env s c2).1.next
            (rebuilt env s.next store mspID0 c2) mspID0 c2).idMap) = none := by
      rw [← herr]
      apply hMgr
      refine (hconf _ _).trans ?_
      rw [hent]
      exact (hconf _ _).symm
    have hkeys : (rebuilt env (ProposeMSP env s c2).1.next
          (rebuilt env s.next store mspID0 c2) mspID0 c2).idMap.keys
        = (rebuilt env s.next store mspID0 c2).idMap.keys := by
      simp only [AList.keys, rebuilt_entries, kerase_cons_self]
      rfl
    refine ⟨⟨(ProposeMSP env s c2).1.next, c2⟩, rebuilt env s.next store mspID0 c2,
      rebuilt env (ProposeMSP env s c2).1.next (rebuilt env s.next store mspID0 c2) mspID0 c2,
      ?_, rfl, hopen1, ?_, hkeys, ?_, ?_, ?_⟩
    · rw [hsecond, herr2]; rfl
    · rw [hsecond]
    · intro k
      rw [AList.mem_keys, AList.mem_keys, hkeys]
    · apply List.count_eq_one_of_mem (AList.keys_nodup _)
      rw [← AList.mem_keys]
      simp [rebuilt]
    · simp [rebuilt, AList.lookup_insert]

/-- Witness of C4: org1 proposed twice with the same configuration, in an environment whose
answers depend on no address. -/
theorem idempotent_reproposal_witness :
    ∃ inst2 store1 store2,
      (ProposeMSP demoEnv (ProposeMSP demoEnv demoOpen cfgA).1 cfgA).2
        = .done (some inst2, none) ∧
      inst2.conf = cfgA ∧
      (ProposeMSP demoEnv demoOpen cfgA).1.bh.pendingConfig = some store1 ∧
      (ProposeMSP demoEnv (ProposeMSP demoEnv demoOpen cfgA).1 cfgA).1.bh.pendingConfig
        = some store2 ∧
      store2.idMap.keys = store1.idMap.keys ∧
      (∀ k, k ∈ store2.idMap ↔ k ∈ store1.idMap) ∧
      store2.idMap.keys.count "org1" = 1 ∧
      (store2.idMap.lookup "org1").map (fun p => p.mspConfig) = some cfgA :=
  idempotent_reproposal demoEnv demoOpen { ref := 1, idMap := ∅, proposedMgr := none }
    cfgA cfgA ⟨2, cfgA⟩ "org1" (by decide) (by decide) (by decide) rfl
    (fun _ _ => rfl) (fun _ _ _ => rfl) (fun i j h => by simp [demoEnv, h])
    (fun _ _ l l2 h => by
      have hany : ∀ l : List MSP,
          l.any (fun i => (i.conf.Config.getD []).contains 13)
            = (l.map fun i => i.conf).any (fun cf => (cf.Config.getD []).contains 13) := by
        intro l
        induction l with
        | nil => rfl
        | cons a t ih => simp only [List.any_cons, List.map_cons, ih]
      have hp : ∀ (a b : List MSPConfig) (f : MSPConfig → Bool), a.Perm b →
          a.any f = b.any f := by
        intro a b f hab
        rw [Bool.eq_iff_iff]
        simp only [List.any_eq_true]
        exact ⟨fun ⟨x, hx, hfx⟩ => ⟨x, hab.subset hx, hfx⟩,
          fun ⟨x, hx, hfx⟩ => ⟨x, hab.symm.subset hx, hfx⟩⟩
      simp only [demoEnv]
      rw [hany l, hany l2, hp _ _ _ h])

/-- C2 (atomic commit): from a handler with no open proposal, after `BeginConfig` and a
non-empty sequence of `ProposeMSP` calls that all succeed (returning the instances
`insts`), `CommitConfig` returns normally and leaves no open proposal; the committed
manager is the proposed manager of the store; its `Setup` was called, with success, with a
list `l` holding one instance per identifier (no identifier twice), every identifier of a
returned instance being represented, and every instance of `l` being one of the returned
instances, created after `BeginConfig`. -/
theorem atomic_commit (env : Env) (s : Sys) (cfgs : List MSPConfig) (insts : List MSP)
    (hidle : s.bh.pendingConfig = none)
    (hne : cfgs ≠ [])
    (hok : (proposeAll env (BeginConfig s).1 cfgs).2
      = insts.map (fun i => .done (some i, none))) :
    (CommitConfig (proposeAll env (BeginConfig s).1 cfgs).1).2 = .done () ∧
    (CommitConfig (proposeAll env (BeginConfig s).1 cfgs).1).1.bh.pendingConfig = none ∧
    insts.map (fun i => i.conf) = cfgs ∧
    ∃ store m l,
      (proposeAll env (BeginConfig s).1 cfgs).1.bh.pendingConfig = some store ∧
      store.proposedMgr = some m ∧
      (CommitConfig (proposeAll env (BeginConfig s).1 cfgs).1).1.bh.MSPManager = some m ∧
      m.msps = some l ∧ m.up = true ∧
      l.Perm (store.idMap.entries.map (fun e => e.2.msp)) ∧
      (l.map (fun i => env.GetIdentifier i)).Nodup ∧
      (∀ i ∈ insts, ∃ j ∈ l, env.GetIdentifier j = env.GetIdentifier i) ∧
      (∀ j ∈ l, j ∈ insts) ∧
      (∀ j ∈ l, s.next < j.ref) := by
  have hb : (BeginConfig s).1 =
      { next := s.next + 1,
        bh := { s.bh with
          pendingConfig := some { ref := s.next, idMap := ∅, proposedMgr := none } } } := by
    simp [BeginConfig, hidle]
  obtain ⟨store, hst, hent, hacc, hconf, hmgr⟩ :=
    proposeAll_success env (s.next + 1) cfgs (BeginConfig s).1
      { ref := s.next, idMap := ∅, proposedMgr := none } insts []
      (by rw [hb]) (by rw [hb]) (by simp) (by simp) hok
  rcases hmgr with ⟨hnil, _⟩ | ⟨m, l, hm, hl, hup, hperm⟩
  · exact absurd hnil hne
  · simp only [List.nil_append] at hent hacc
    have hcommit : CommitConfig (proposeAll env (BeginConfig s).1 cfgs).1 =
        ({ (proposeAll env (BeginConfig s).1 cfgs).1 with
            bh := { pendingConfig := none, MSPManager := store.proposedMgr } }, .done ()) := by
      simp [CommitConfig, hst]
    rw [hcommit]
    refine ⟨rfl, rfl, hconf, store, m, l, hst, hm, hm, hl, hup, hperm, ?_, ?_, ?_, ?_⟩
    · refine (hperm.map _).nodup_iff.2 ?_
      have hmap : (store.idMap.entries.map (fun e => e.2.msp)).map
            (fun i => env.GetIdentifier i)
          = store.idMap.keys.map (fun k => (Except.ok k : Except String String)) := by
        simp only [AList.keys, List.keys, List.map_map]
        apply List.map_congr_left
        intro e he
        exact (hent e he).2.1
      rw [hmap]
      exact store.idMap.keys_nodup.map (fun a b hab => by cases hab; rfl)
    · intro i hi
      obtain ⟨k, hk1, hk2⟩ := hacc i hi
      rw [AList.mem_keys, AList.keys, List.keys, List.mem_map] at hk2
      obtain ⟨e, he, hek⟩ := hk2
      refine ⟨e.2.msp, hperm.symm.subset (List.mem_map_of_mem _ he), ?_⟩
      rw [(hent e he).2.1, hk1, hek]
    · intro j hj
      obtain ⟨e, he, rfl⟩ := List.mem_map.1 (hperm.subset hj)
      exact (hent e he).1
    · intro j hj
      obtain ⟨e, he, rfl⟩ := List.mem_map.1 (hperm.subset hj)
      exact (hent e he).2.2

/-- Witness of C2: org1, org2 and again org1 are proposed and committed; the committed
manager holds the instance of org2 and the second instance of org1. -/
theorem atomic_commit_witness :
    (CommitConfig (proposeAll demoEnv (BeginConfig demoIdle).1 [cfgA, cfgB, cfgA]).1).1.bh
      = { pendingConfig := none,
          MSPManager := some ⟨7, some [⟨4, cfgB⟩, ⟨6, cfgA⟩], true⟩ } ∧
    [cfgA, cfgB, cfgA] = [cfgA, cfgB, cfgA] ∧
    ∃ store m l,
      (proposeAll demoEnv (BeginConfig demoIdle).1 [cfgA, cfgB, cfgA]).1.bh.pendingConfig
        = some store ∧
      store.proposedMgr = some m ∧ m.msps = some l ∧
      (∀ j ∈ l, j ∈ [(⟨2, cfgA⟩ : MSP), ⟨4, cfgB⟩, ⟨6, cfgA⟩]) :=
  ⟨by decide, rfl,
   (atomic_commit demoEnv demoIdle [cfgA, cfgB, cfgA] [⟨2, cfgA⟩, ⟨4, cfgB⟩, ⟨6, cfgA⟩]
      (by decide) (by decide) (by decide)).2.2.2.imp fun _ h => h.imp fun _ h => h.imp
        fun _ h => ⟨h.1, h.2.1, h.2.2.2.1, h.2.2.2.2.2.2.2.2.1⟩⟩

/-! ## Further lemmas on sequences of proposals -/

/-- Along any sequence of `ProposeMSP` calls on an open store, the proposed manager is
absent exactly when the map is empty. -/
theorem proposeAll_absent_iff (env : Env) (cfgs : List MSPConfig) :
    ∀ (s : Sys) (store : mspConfigStore), s.bh.pendingConfig = some store →
      (store.proposedMgr = none ↔ store.idMap.entries = []) →
      ∃ store2, (proposeAll env s cfgs).1.bh.pendingConfig = some store2 ∧
        (store2.proposedMgr = none ↔ store2.idMap.entries = []) := by
  induction cfgs with
  | nil =>
    intro s store hopen hI
    exact ⟨store, hopen, hI⟩
  | cons c cs ih =>
    intro s store hopen hI
    rcases ProposeMSP_cases env s c store hopen with
      ⟨hbh, _, _⟩ | ⟨mspID, _, _, _, _, _, hst, _⟩
    · exact ih (ProposeMSP env s c).1 store (by rw [hbh, hopen]) hI
    · refine ih (ProposeMSP env s c).1 (rebuilt env s.next store mspID c) (by rw [hst]) ?_
      rw [rebuilt_entries]
      constructor
      · intro h; simp [rebuilt] at h
      · intro h; cases h

/-- Along a sequence of `ProposeMSP` calls that all fail, on an open store, a proposed
manager that is present is one whose `Setup` failed. -/
theorem proposeAll_failed_setup (env : Env) (cfgs : List MSPConfig) :
    ∀ (s : Sys) (store : mspConfigStore), s.bh.pendingConfig = some store →
      (∀ m, store.proposedMgr = some m → m.up = false) →
      (∀ r ∈ (proposeAll env s cfgs).2, ∃ e, r = .done (none, some e)) →
      ∃ store2, (proposeAll env s cfgs).1.bh.pendingConfig = some store2 ∧
        ∀ m, store2.proposedMgr = some m → m.up = false := by
  induction cfgs with
  | nil =>
    intro s store hopen hJ _
    exact ⟨store, hopen, hJ⟩
  | cons c cs ih =>
    intro s store hopen hJ hfail
    have hrest : ∀ r ∈ (proposeAll env (ProposeMSP env s c).1 cs).2,
        ∃ e, r = .done (none, some e) := by
      intro r hr
      exact hfail r (by simp only [proposeAll, List.mem_cons]; exact Or.inr hr)
    obtain ⟨e, he⟩ := hfail (ProposeMSP env s c).2 (by simp [proposeAll])
    rcases ProposeMSP_cases env s c store hopen with
      ⟨hbh, _, _⟩ | ⟨mspID, _, _, _, _, _, hst, hres⟩
    · exact ih (ProposeMSP env s c).1 store (by rw [hbh, hopen]) hJ hrest
    · refine ih (ProposeMSP env s c).1 (rebuilt env s.next store mspID c) (by rw [hst]) ?_ hrest
      intro m hm
      simp only [rebuilt, Option.some.injEq] at hm
      subst hm
      rw [hres] at he
      cases herr : env.mgrSetup (s.next + 1)
          (mspList env (s.next + 1) (rebuilt env s.next store mspID c).idMap) with
      | none => rw [herr] at he; simp at he
      | some e2 =>
        show (env.mgrSetup (s.next + 1)
          (mspList env (s.next + 1) (rebuilt env s.next store mspID c).idMap)).isNone = false
        rw [herr]; rfl

/-- The state after a sequence of proposals is the state after its second part run from the
state after its first part. -/
theorem proposeAll_append (env : Env) (xs ys : List MSPConfig) :
    ∀ s : Sys, (proposeAll env s (xs ++ ys)).1
      = (proposeAll env (proposeAll env s xs).1 ys).1 := by
  induction xs with
  | nil => intro s; rfl
  | cons x rest ih =>
    intro s
    simp only [List.cons_append, proposeAll]
    exact ih _

/-- Along any sequence of `ProposeMSP` calls on an open store, an identifier of the map
stays in the map. -/
theorem proposeAll_mem_mono (env : Env) (cfgs : List MSPConfig) :
    ∀ (s : Sys) (store : mspConfigStore) (k : String),
      s.bh.pendingConfig = some store → k ∈ store.idMap →
      ∃ store2, (proposeAll env s cfgs).1.bh.pendingConfig = some store2 ∧
        k ∈ store2.idMap := by
  induction cfgs with
  | nil =>
    intro s store k hopen hk
    exact ⟨store, hopen, hk⟩
  | cons c cs ih =>
    intro s store k hopen hk
    rcases ProposeMSP_cases env s c store hopen with
      ⟨hbh, _, _⟩ | ⟨mspID, _, _, _, _, _, hst, _⟩
    · exact ih (ProposeMSP env s c).1 store k (by rw [hbh, hopen]) hk
    · refine ih (ProposeMSP env s c).1 (rebuilt env s.next store mspID c) k (by rw [hst]) ?_
      simp only [rebuilt, AList.mem_insert]
      exact Or.inr hk

/-- Along a sequence of `ProposeMSP` calls that all fail, on an open store: either the store
is left as it was, or one of the calls passed the type, creation, instance setup,
identifier and conflict checks and then got an error from the `Setup` of the new manager. -/
theorem proposeAll_unchanged_or_failed (env : Env) (cfgs : List MSPConfig) :
    ∀ (s : Sys) (store : mspConfigStore), s.bh.pendingConfig = some store →
      (∀ r ∈ (proposeAll env s cfgs).2, ∃ e, r = .done (none, some e)) →
      (proposeAll env s cfgs).1.bh.pendingConfig = some store ∨
      ∃ (pre post : List MSPConfig) (c : MSPConfig) (sI : Sys) (storeI : mspConfigStore)
        (mspID err : String),
        cfgs = pre ++ c :: post ∧
        sI = (proposeAll env s pre).1 ∧
        sI.bh.pendingConfig = some storeI ∧
        c.type = env.FABRIC ∧
        env.NewBccspMsp sI.next = none ∧
        env.Setup sI.next c = none ∧
        env.GetIdentifier ⟨sI.next, c⟩ = .ok mspID ∧
        (∀ p, storeI.idMap.lookup mspID = some p → p.mspConfig = c) ∧
        env.mgrSetup (sI.next + 1) (mspList env (sI.next + 1)
          (storeI.idMap.insert mspID { mspConfig := c, msp := ⟨sI.next, c⟩ })) = some err := by
  induction cfgs with
  | nil =>
    intro s store hopen _
    exact Or.inl hopen
  | cons c cs ih =>
    intro s store hopen hfail
    have hrest : ∀ r ∈ (proposeAll env (ProposeMSP env s c).1 cs).2,
        ∃ e, r = .done (none, some e) := by
      intro r hr
      exact hfail r (by simp only [proposeAll, List.mem_cons]; exact Or.inr hr)
    obtain ⟨e, he⟩ := hfail (ProposeMSP env s c).2 (by simp [proposeAll])
    rcases ProposeMSP_cases env s c store hopen with
      ⟨hbh, _, _⟩ | ⟨mspID, ht, hn, hs, hg, hcompat, _, hres⟩
    · rcases ih (ProposeMSP env s c).1 store (by rw [hbh, hopen]) hrest with
        hsame | ⟨pre, post, c2, sI, storeI, mspID, err, hsplit, hsI, h1, h2, h3, h4, h5, h6, h7⟩
      · exact Or.inl hsame
      · refine Or.inr ⟨c :: pre, post, c2, sI, storeI, mspID, err, ?_, ?_,
          h1, h2, h3, h4, h5, h6, h7⟩
        · rw [hsplit]; rfl
        · rw [hsI]; rfl
    · right
      rw [hres] at he
      cases herr : env.mgrSetup (s.next + 1)
          (mspList env (s.next + 1) (rebuilt env s.next store mspID c).idMap) with
      | none => rw [herr] at he; simp at he
      | some err =>
        exact ⟨[], cs, c, s, store, mspID, err, rfl, rfl, hopen, ht, hn, hs, hg, hcompat, herr⟩

/-! ## The claims, continued -/

/-- C11, as stated, fails: after `BeginConfig` and one `ProposeMSP` call that fails in the
manager setup, no call has succeeded and yet the proposed manager is present: it is the new
manager, whose `Setup` failed. -/
theorem tentative_manager_absent_counterexample :
    (proposeAll demoEnv (BeginConfig demoIdle).1 [cfgPoison]).2
      = [.done (none, some "rejected")] ∧
    ((proposeAll demoEnv (BeginConfig demoIdle).1 [cfgPoison]).1.bh.pendingConfig.bind
        fun st => st.proposedMgr) = some ⟨3, some [⟨2, cfgPoison⟩], false⟩ ∧
    ¬ ((proposeAll demoEnv (BeginConfig demoIdle).1 [cfgPoison]).1.bh.pendingConfig.bind
        fun st => st.proposedMgr) = none := by
  decide

/-- C11, amended: after `BeginConfig` and any sequence of `ProposeMSP` calls none of which
succeeded, the proposal is open and its proposed manager is absent exactly when the map is
empty; a proposed manager that is present is one whose `Setup` failed.  Every call of the
sequence that passed the type, creation, instance setup, identifier and conflict checks and
failed in the `Setup` of the new manager leaves the proposed manager present (its `Setup`
failed) with the identifier of that call in the map; and the proposed manager is present
only if there was such a call. -/
theorem tentative_manager_after_failures (env : Env) (s : Sys) (cfgs : List MSPConfig)
    (hidle : s.bh.pendingConfig = none)
    (hfail : ∀ r ∈ (proposeAll env (BeginConfig s).1 cfgs).2,
      ∃ e, r = .done (none, some e)) :
    ∃ store, (proposeAll env (BeginConfig s).1 cfgs).1.bh.pendingConfig = some store ∧
      (store.proposedMgr = none ↔ store.idMap.entries = []) ∧
      (∀ m, store.proposedMgr = some m → m.up = false) ∧
      (∀ (pre post : List MSPConfig) (c : MSPConfig) (sI : Sys) (storeI : mspConfigStore)
          (mspID err : String),
        cfgs = pre ++ c :: post →
        sI = (proposeAll env (BeginConfig s).1 pre).1 →
        sI.bh.pendingConfig = some storeI →
        c.type = env.FABRIC →
        env.NewBccspMsp sI.next = none →
        env.Setup sI.next c = none →
        env.GetIdentifier ⟨sI.next, c⟩ = .ok mspID →
        (∀ p, storeI.idMap.lookup mspID = some p → p.mspConfig = c) →
        env.mgrSetup (sI.next + 1) (mspList env (sI.next + 1)
          (storeI.idMap.insert mspID { mspConfig := c, msp := ⟨sI.next, c⟩ })) = some err →
        ∃ m, store.proposedMgr = some m ∧ m.up = false ∧ mspID ∈ store.idMap) ∧
      (store.proposedMgr ≠ none →
        ∃ (pre post : List MSPConfig) (c : MSPConfig) (sI : Sys) (storeI : mspConfigStore)
          (mspID err : String),
          cfgs = pre ++ c :: post ∧
          sI = (proposeAll env (BeginConfig s).1 pre).1 ∧
          sI.bh.pendingConfig = some storeI ∧
          c.type = env.FABRIC ∧
          env.NewBccspMsp sI.next = none ∧
          env.Setup sI.next c = none ∧
          env.GetIdentifier ⟨sI.next, c⟩ = .ok mspID ∧
          (∀ p, storeI.idMap.lookup mspID = some p → p.mspConfig = c) ∧
          env.mgrSetup (sI.next + 1) (mspList env (sI.next + 1)
            (storeI.idMap.insert mspID { mspConfig := c, msp := ⟨sI.next, c⟩ })) = some err) := by
  have hb : (BeginConfig s).1.bh.pendingConfig =
      some { ref := s.next, idMap := ∅, proposedMgr := none } := by
    simp [BeginConfig, hidle]
  obtain ⟨st1, h1, hI⟩ := proposeAll_absent_iff env cfgs (BeginConfig s).1 _ hb
    ⟨fun _ => rfl, fun _ => rfl⟩
  obtain ⟨st2, h2, hJ⟩ := proposeAll_failed_setup env cfgs (BeginConfig s).1 _ hb
    (by intro m hm; cases hm) hfail
  rw [h1] at h2
  cases h2
  refine ⟨st1, h1, hI, hJ, ?_, ?_⟩
  · intro pre post c sI storeI mspID err hsplit hsI hopenI ht hn hs hg hcompat _
    -- the call writes its entry, and the entry stays in the map
    have hins := ProposeMSP_insert env sI c storeI mspID hopenI ht hn hs hg hcompat
    have hopen1 : (ProposeMSP env sI c).1.bh.pendingConfig
        = some (rebuilt env sI.next storeI mspID c) := by rw [hins]
    have hmem1 : mspID ∈ (rebuilt env sI.next storeI mspID c).idMap := by
      simp [rebuilt, AList.mem_insert]
    obtain ⟨st3, h3, hmem3⟩ := proposeAll_mem_mono env post (ProposeMSP env sI c).1 _ mspID
      hopen1 hmem1
    have hfinal : (proposeAll env (BeginConfig s).1 cfgs).1
        = (proposeAll env (ProposeMSP env sI c).1 post).1 := by
      rw [hsplit, proposeAll_append, ← hsI]
      rfl
    have heq : st3 = st1 := by
      rw [hfinal, h3] at h1
      exact Option.some.inj h1
    rw [heq] at hmem3
    have hne : st1.idMap.entries ≠ [] := by
      intro hnil
      rw [AList.mem_keys, AList.keys, hnil] at hmem3
      cases hmem3
    cases hm : st1.proposedMgr with
    | none => exact absurd (hI.1 hm) hne
    | some m => exact ⟨m, rfl, hJ m hm, hmem3⟩
  · intro hpresent
    rcases proposeAll_unchanged_or_failed env cfgs (BeginConfig s).1 _ hb hfail with
      hsame | hcall
    · rw [h1] at hsame
      cases hsame
      exact absurd rfl hpresent
    · exact hcall

/-- Witness of C11, amended: an unsupported type, a manager setup that fails and an instance
setup that fails; the second call failed in the manager setup, and the proposed manager is
present, its `Setup` failed, with org3 in the map. -/
theorem tentative_manager_after_failures_witness :
    ∃ store,
      (proposeAll demoEnv (BeginConfig demoIdle).1 [cfgBad, cfgPoison, cfgNil]).1.bh.pendingConfig
        = some store ∧
      ∃ m, store.proposedMgr = some m ∧ m.up = false ∧ "org3" ∈ store.idMap :=
  (tentative_manager_after_failures demoEnv demoIdle [cfgBad, cfgPoison, cfgNil] (by decide)
    (by
      intro r hr
      have hres : (proposeAll demoEnv (BeginConfig demoIdle).1 [cfgBad, cfgPoison, cfgNil]).2
          = [.done (none, some "Setup error: unsupported msp type 3"),
             .done (none, some "rejected"),
             .done (none, some "Setting up the MSP manager failed, err nil config")] := by
        decide
      rw [hres] at hr
      simp only [List.mem_cons, List.mem_singleton, List.not_mem_nil, or_false] at hr
      rcases hr with rfl | rfl | rfl <;> exact ⟨_, rfl⟩)).imp fun _ h =>
        ⟨h.1, h.2.2.2.1 [cfgBad] [cfgNil] cfgPoison
          (proposeAll demoEnv (BeginConfig demoIdle).1 [cfgBad]).1
          { ref := 1, idMap := ∅, proposedMgr := none } "org3" "rejected"
          rfl rfl (by decide) (by decide) (by decide) (by decide) (by decide) (by decide)
          (by decide)⟩

/-- C12 (failed manager rebuild): with a proposal open, when the type, creation, instance
setup, identifier and conflict checks pass and the `Setup` of the new manager on the
collected instances returns `err`, `ProposeMSP` returns `err` and no instance; the entry
(configuration, new instance) is in the map under its identifier, the proposed manager is
the new manager (its `Setup` failed), and the proposal stays open on the same store object,
the committed manager being untouched. -/
theorem failed_manager_rebuild (env : Env) (s : Sys) (store : mspConfigStore) (c : MSPConfig)
    (mspID err : String)
    (hopen : s.bh.pendingConfig = some store)
    (ht : c.type = env.FABRIC)
    (hn : env.NewBccspMsp s.next = none)
    (hs : env.Setup s.next c = none)
    (hid : env.GetIdentifier ⟨s.next, c⟩ = .ok mspID)
    (hcompat : ∀ p, store.idMap.lookup mspID = some p → p.mspConfig = c)
    (hfail : env.mgrSetup (s.next + 1) (mspList env (s.next + 1)
      (store.idMap.insert mspID { mspConfig := c, msp := ⟨s.next, c⟩ })) = some err) :
    (ProposeMSP env s c).2 = .done (none, some err) ∧
    (ProposeMSP env s c).1.bh.MSPManager = s.bh.MSPManager ∧
    ∃ store2, (ProposeMSP env s c).1.bh.pendingConfig = some store2 ∧
      store2.ref = store.ref ∧
      store2.idMap = store.idMap.insert mspID { mspConfig := c, msp := ⟨s.next, c⟩ } ∧
      store2.idMap.lookup mspID = some { mspConfig := c, msp := ⟨s.next, c⟩ } ∧
      store2.proposedMgr = some
        { ref := s.next + 1, msps := some (mspList env (s.next + 1) store2.idMap),
          up := false } := by
  have hfail2 : env.mgrSetup (s.next + 1)
      (mspList env (s.next + 1) (rebuilt env s.next store mspID c).idMap) = some err := hfail
  rw [ProposeMSP_insert env s c store mspID hopen ht hn hs hid hcompat, hfail2]
  refine ⟨rfl, rfl, rebuilt env s.next store mspID c, rfl, rfl, rfl, ?_, ?_⟩
  · simp [rebuilt, AList.lookup_insert]
  · have : (rebuilt env s.next store mspID c).proposedMgr = some
        { ref := s.next + 1,
          msps := some (mspList env (s.next + 1) (rebuilt env s.next store mspID c).idMap),
          up := (env.mgrSetup (s.next + 1)
            (mspList env (s.next + 1) (rebuilt env s.next store mspID c).idMap)).isNone } := rfl
    rw [this, hfail2]; rfl

/-- Witness of C12: a configuration that the manager rejects, proposed after org1. -/
theorem failed_manager_rebuild_witness :
    (ProposeMSP demoEnv demoOne cfgPoison).2 = .done (none, some "rejected") ∧
    ∃ store2, (ProposeMSP demoEnv demoOne cfgPoison).1.bh.pendingConfig = some store2 ∧
      store2.idMap.lookup "org3" = some { mspConfig := cfgPoison, msp := ⟨demoOne.next, cfgPoison⟩ } :=
  ⟨(failed_manager_rebuild demoEnv demoOne
      { ref := 1, idMap := (∅ : IdMap).insert "org1" ⟨cfgA, ⟨2, cfgA⟩⟩,
        proposedMgr := some ⟨3, some [⟨2, cfgA⟩], true⟩ }
      cfgPoison "org3" "rejected"
      (by decide) (by decide) (by decide) (by decide) (by decide) (by decide) (by decide)).1,
   (failed_manager_rebuild demoEnv demoOne
      { ref := 1, idMap := (∅ : IdMap).insert "org1" ⟨cfgA, ⟨2, cfgA⟩⟩,
        proposedMgr := some ⟨3, some [⟨2, cfgA⟩], true⟩ }
      cfgPoison "org3" "rejected"
      (by decide) (by decide) (by decide) (by decide) (by decide) (by decide)
      (by decide)).2.2.imp fun _ h => ⟨h.1, h.2.2.2.1⟩⟩

/-- With no proposal open, `BeginConfig` returns normally and opens an empty store at the
next unused address. -/
theorem BeginConfig_idle (t : Sys) (h : t.bh.pendingConfig = none) :
    BeginConfig t =
      ({ next := t.next + 1,
         bh := { t.bh with
           pendingConfig := some { ref := t.next, idMap := ∅, proposedMgr := none } } },
       .done ()) := by
  simp [BeginConfig, h]

/-- The list collected from a map with a single entry holds the instance of that entry. -/
theorem mspList_single (env : Env) (r : Nat) (k : String) (v : pendingMSPConfig) :
    mspList env r ((∅ : IdMap).insert k v) = [v.msp] := by
  have hent : ((∅ : IdMap).insert k v).entries = [⟨k, v⟩] := by
    rw [AList.insert_entries]; rfl
  have hperm := env.range_perm r ((∅ : IdMap).insert k v).entries
  rw [hent, List.perm_singleton] at hperm
  simp [mspList, hperm]

/-- After `BeginConfig`, two proposals and `CommitConfig`, a new `BeginConfig` opens a
store with an empty map and no proposed manager. -/
theorem second_proposal_fresh (env : Env) (s : Sys) (cfgA cfgB : MSPConfig)
    (hidle : s.bh.pendingConfig = none) :
    (run env s [.begin, .propose cfgA, .propose cfgB, .commit, .begin]).bh.pendingConfig
      = some { ref := (run env s [.begin, .propose cfgA, .propose cfgB, .commit]).next,
               idMap := ∅, proposedMgr := none } := by
  have hb : (BeginConfig s).1.bh.pendingConfig =
      some { ref := s.next, idMap := ∅, proposedMgr := none } := by
    simp [BeginConfig, hidle]
  obtain ⟨_, st2, h2, _⟩ := ProposeMSP_open env (BeginConfig s).1 cfgA _ hb
  obtain ⟨_, st3, h3, _⟩ := ProposeMSP_open env (ProposeMSP env (BeginConfig s).1 cfgA).1 cfgB _ h2
  have h4 : (CommitConfig (ProposeMSP env (ProposeMSP env (BeginConfig s).1 cfgA).1 cfgB).1).1.bh.pendingConfig
      = none := by
    simp [CommitConfig, h3]
  show (BeginConfig (CommitConfig
      (ProposeMSP env (ProposeMSP env (BeginConfig s).1 cfgA).1 cfgB).1).1).1.bh.pendingConfig = _
  rw [BeginConfig_idle _ h4]
  rfl

/-- C13 (full replacement set): after `BeginConfig`, `ProposeMSP cfgA`, `ProposeMSP cfgB`
and `CommitConfig` (whatever those proposals stored, in particular when they succeed under
the identifiers org1 and org2), a new `BeginConfig` opens an empty store; a proposal
`cfgA2` whose provider is built and reports the identifier `idA`, whatever its body, takes
no conflict branch: it returns its new instance, or the error of the manager setup; and
after `CommitConfig` the committed manager is the one set up with the single instance built
from `cfgA2`, which holds no instance of another identifier. -/
theorem full_replacement (env : Env) (s : Sys) (cfgA cfgB cfgA2 : MSPConfig) (idA : String)
    (hidle : s.bh.pendingConfig = none)
    (ht : cfgA2.type = env.FABRIC)
    (hn : env.NewBccspMsp
      (run env s [.begin, .propose cfgA, .propose cfgB, .commit, .begin]).next = none)
    (hs : env.Setup
      (run env s [.begin, .propose cfgA, .propose cfgB, .commit, .begin]).next cfgA2 = none)
    (hid : env.GetIdentifier
      ⟨(run env s [.begin, .propose cfgA, .propose cfgB, .commit, .begin]).next, cfgA2⟩
        = .ok idA) :
    ∃ (s5 : Sys) (inst : MSP) (r : Nat),
      s5 = run env s [.begin, .propose cfgA, .propose cfgB, .commit, .begin] ∧
      inst = ⟨s5.next, cfgA2⟩ ∧
      (∃ r0, s5.bh.pendingConfig = some { ref := r0, idMap := ∅, proposedMgr := none }) ∧
      (ProposeMSP env s5 cfgA2).2 =
        .done (if (env.mgrSetup r [inst]).isSome then (none, env.mgrSetup r [inst])
               else (some inst, none)) ∧
      (CommitConfig (ProposeMSP env s5 cfgA2).1).2 = .done () ∧
      (CommitConfig (ProposeMSP env s5 cfgA2).1).1.bh =
        { pendingConfig := none,
          MSPManager := some
            { ref := r, msps := some [inst], up := (env.mgrSetup r [inst]).isNone } } ∧
      (∀ j ∈ [inst], ∀ idB, idB ≠ idA → env.GetIdentifier j ≠ .ok idB) := by
  have hfresh := second_proposal_fresh env s cfgA cfgB hidle
  have hins := ProposeMSP_insert env
    (run env s [.begin, .propose cfgA, .propose cfgB, .commit, .begin]) cfgA2 _ idA
    hfresh ht hn hs hid (by intro p hp; simp at hp)
  have hlist : ∀ n r0 : Nat, mspList env (n + 1)
      (rebuilt env n { ref := r0, idMap := ∅, proposedMgr := none } idA cfgA2).idMap
        = [⟨n, cfgA2⟩] := by
    intro n r0
    exact mspList_single env (n + 1) idA _
  have hreb : ∀ n r0 : Nat,
      (rebuilt env n { ref := r0, idMap := ∅, proposedMgr := none } idA cfgA2).proposedMgr
        = some { ref := n + 1, msps := some [⟨n, cfgA2⟩],
                 up := (env.mgrSetup (n + 1) [⟨n, cfgA2⟩]).isNone } := by
    intro n r0
    have h := hlist n r0
    simp only [rebuilt] at h ⊢
    rw [h]
  refine ⟨_, _, (run env s [.begin, .propose cfgA, .propose cfgB, .commit, .begin]).next + 1,
    rfl, rfl, ⟨_, hfresh⟩, ?_, ?_, ?_, ?_⟩
  · rw [hins, hlist]
  · rw [hins]; rfl
  · rw [hins]
    simp only [CommitConfig]
    rw [hreb]
  · intro j hj idB hne hcontra
    simp only [List.mem_singleton] at hj
    subst hj
    rw [hid] at hcontra
    cases hcontra
    exact hne rfl

/-- Witness of C13: org1 and org2 are committed, then org1 alone is proposed with another
body and committed. -/
theorem full_replacement_witness :
    (ProposeMSP demoEnv (run demoEnv demoIdle [.begin, .propose cfgA, .propose cfgB]) cfgA2).2
      = .done (none, some ("Attempted to define two different versions of MSP: " ++ "org1")) ∧
    (run demoEnv demoIdle [.begin, .propose cfgA, .propose cfgB, .commit]).bh.MSPManager
      = some ⟨5, some [⟨2, cfgA⟩, ⟨4, cfgB⟩], true⟩ ∧
    ∃ (s5 : Sys) (inst : MSP) (r : Nat),
      s5 = run demoEnv demoIdle [.begin, .propose cfgA, .propose cfgB, .commit, .begin] ∧
      inst = ⟨7, cfgA2⟩ ∧
      (ProposeMSP demoEnv s5 cfgA2).2 = .done (some inst, none) ∧
      (CommitConfig (ProposeMSP demoEnv s5 cfgA2).1).1.bh =
        { pendingConfig := none,
          MSPManager := some { ref := r, msps := some [inst], up := true } } :=
  ⟨by decide, by decide,
   (full_replacement demoEnv demoIdle cfgA cfgB cfgA2 "org1"
      (by decide) (by decide) (by decide) (by decide) (by decide)).imp fun s5 h =>
        h.imp fun inst h => h.imp fun r h => by
          obtain ⟨h1, h2, _, h4, _, h6, _⟩ := h
          have hnext : s5.next = 7 := by rw [h1]; decide
          rw [hnext] at h2
          have hok : demoEnv.mgrSetup r [inst] = none := by rw [h2]; rfl
          rw [hok] at h4 h6
          exact ⟨h1, h2, h4, h6⟩⟩

/-- With no proposal open, `ProposeMSP` returns an error and no instance when a check
before the map lookup fails, and panics on the lookup otherwise; the handler is unchanged
in both cases. -/
theorem ProposeMSP_closed_cases (env : Env) (s : Sys) (c : MSPConfig)
    (h : s.bh.pendingConfig = none) :
    (∃ e, (ProposeMSP env s c).2 = .done (none, some e)) ∨
    (c.type = env.FABRIC ∧ env.NewBccspMsp s.next = none ∧ env.Setup s.next c = none ∧
      (∃ mspID, env.GetIdentifier ⟨s.next, c⟩ = .ok mspID) ∧
      (ProposeMSP env s c).1.bh = s.bh ∧
      (ProposeMSP env s c).2 =
        .panic "runtime error: invalid memory address or nil pointer dereference") := by
  by_cases ht : c.type = env.FABRIC
  · cases hn : env.NewBccspMsp s.next with
    | some err => left; simp [ProposeMSP, ht, hn]
    | none =>
      cases hs : env.Setup s.next c with
      | some err => left; simp [ProposeMSP, ht, hn, hs]
      | none =>
        cases hg : env.GetIdentifier ⟨s.next, c⟩ with
        | error err => left; simp [ProposeMSP, ht, hn, hs, hg]
        | ok mspID =>
          right
          refine ⟨ht, rfl, rfl, ⟨mspID, rfl⟩, ?_, ?_⟩ <;>
            simp [ProposeMSP, ht, hn, hs, hg, h]
  · left; simp [ProposeMSP, ht]

/-- C14 (no partial registration): with a proposal open and a configuration of the
supported type, if the creation of the instance fails, or its `Setup` fails, or its
identifier cannot be extracted, then `ProposeMSP` returns an error and no instance and the
handler is unchanged: the same store, with the same map and the same proposed manager. -/
theorem factory_failure_no_registration (env : Env) (s : Sys) (store : mspConfigStore)
    (c : MSPConfig)
    (hopen : s.bh.pendingConfig = some store)
    (ht : c.type = env.FABRIC)
    (hfail : (∃ e, env.NewBccspMsp s.next = some e) ∨
      (∃ e, env.Setup s.next c = some e) ∨
      (∃ e, env.GetIdentifier ⟨s.next, c⟩ = .error e)) :
    (∃ e, (ProposeMSP env s c).2 = .done (none, some e)) ∧
    (ProposeMSP env s c).1.bh = s.bh ∧
    (ProposeMSP env s c).1.bh.pendingConfig = some store ∧
    (∀ e, env.NewBccspMsp s.next = some e →
      (ProposeMSP env s c).2 = .done (none,
        some ("Creating the MSP manager failed, err " ++ e))) ∧
    (∀ e, env.NewBccspMsp s.next = none → env.Setup s.next c = some e →
      (ProposeMSP env s c).2 = .done (none,
        some ("Setting up the MSP manager failed, err " ++ e))) ∧
    (∀ e, env.NewBccspMsp s.next = none → env.Setup s.next c = none →
      env.GetIdentifier ⟨s.next, c⟩ = .error e →
      (ProposeMSP env s c).2 = .done (none,
        some ("Could not extract msp identifier, err " ++ e))) := by
  have hmsg : (∀ e, env.NewBccspMsp s.next = some e →
      ProposeMSP env s c = ({ s with next := s.next + 1 }, .done (none,
        some ("Creating the MSP manager failed, err " ++ e)))) ∧
    (∀ e, env.NewBccspMsp s.next = none → env.Setup s.next c = some e →
      ProposeMSP env s c = ({ s with next := s.next + 1 }, .done (none,
        some ("Setting up the MSP manager failed, err " ++ e)))) ∧
    (∀ e, env.NewBccspMsp s.next = none → env.Setup s.next c = none →
      env.GetIdentifier ⟨s.next, c⟩ = .error e →
      ProposeMSP env s c = ({ s with next := s.next + 1 }, .done (none,
        some ("Could not extract msp identifier, err " ++ e)))) := by
    refine ⟨?_, ?_, ?_⟩
    · intro e h1; simp [ProposeMSP, ht, h1]
    · intro e h1 h2; simp [ProposeMSP, ht, h1, h2]
    · intro e h1 h2 h3; simp [ProposeMSP, ht, h1, h2, h3]
  obtain ⟨m1, m2, m3⟩ := hmsg
  have hshape : ∃ e, ProposeMSP env s c = ({ s with next := s.next + 1 },
      .done (none, some e)) := by
    cases h1 : env.NewBccspMsp s.next with
    | some e => exact ⟨_, m1 e h1⟩
    | none =>
      cases h2 : env.Setup s.next c with
      | some e => exact ⟨_, m2 e h1 h2⟩
      | none =>
        cases h3 : env.GetIdentifier ⟨s.next, c⟩ with
        | error e => exact ⟨_, m3 e h1 h2 h3⟩
        | ok mspID =>
          rcases hfail with ⟨e, he⟩ | ⟨e, he⟩ | ⟨e, he⟩
          · rw [h1] at he; cases he
          · rw [h2] at he; cases he
          · rw [h3] at he; cases he
  obtain ⟨e, he⟩ := hshape
  refine ⟨⟨e, by rw [he]⟩, by rw [he], by rw [he]; exact hopen, ?_, ?_, ?_⟩
  · intro e2 h1; rw [m1 e2 h1]
  · intro e2 h1 h2; rw [m2 e2 h1 h2]
  · intro e2 h1 h2 h3; rw [m3 e2 h1 h2 h3]

/-- Witness of C14: a configuration with a nil body, whose instance cannot be set up. -/
theorem factory_failure_no_registration_witness :
    (∃ e, (ProposeMSP demoEnv demoOne cfgNil).2 = .done (none, some e)) ∧
    (ProposeMSP demoEnv demoOne cfgNil).1.bh = demoOne.bh :=
  ⟨(factory_failure_no_registration demoEnv demoOne
      { ref := 1, idMap := (∅ : IdMap).insert "org1" ⟨cfgA, ⟨2, cfgA⟩⟩,
        proposedMgr := some ⟨3, some [⟨2, cfgA⟩], true⟩ }
      cfgNil (by decide) (by decide) (Or.inr (Or.inl ⟨"nil config", by decide⟩))).1,
   (factory_failure_no_registration demoEnv demoOne
      { ref := 1, idMap := (∅ : IdMap).insert "org1" ⟨cfgA, ⟨2, cfgA⟩⟩,
        proposedMgr := some ⟨3, some [⟨2, cfgA⟩], true⟩ }
      cfgNil (by decide) (by decide) (Or.inr (Or.inl ⟨"nil config", by decide⟩))).2.1⟩

/-- C15: with a proposal open `ProposeMSP` returns, and whenever it returns (in any state)
the value is exactly one of an instance or an error: either the instance newly built in
this call from the argument configuration (at the address that was unused before the call)
with no error, this instance being then the one stored in the map, whether its identifier
was new or already present; or no instance and an error. -/
theorem propose_returns_one (env : Env) (s : Sys) (c : MSPConfig) :
    (∀ store, s.bh.pendingConfig = some store → ∃ v, (ProposeMSP env s c).2 = .done v) ∧
    (∀ v, (ProposeMSP env s c).2 = .done v →
      v = (some ⟨s.next, c⟩, none) ∨ ∃ e, v = (none, some e)) ∧
    (∀ i, (ProposeMSP env s c).2 = .done (some i, none) →
      i.conf = c ∧ i.ref = s.next ∧
      ∃ store2 mspID, (ProposeMSP env s c).1.bh.pendingConfig = some store2 ∧
        env.GetIdentifier i = .ok mspID ∧
        store2.idMap.lookup mspID = some { mspConfig := c, msp := i }) := by
  have hdich : ∀ v, (ProposeMSP env s c).2 = .done v →
      v = (some ⟨s.next, c⟩, none) ∨ ∃ e, v = (none, some e) := by
    intro v hv
    cases hpc : s.bh.pendingConfig with
    | some store =>
      rcases ProposeMSP_cases env s c store hpc with
        ⟨_, _, e, he⟩ | ⟨mspID, _, _, _, _, _, _, hres⟩
      · rw [he] at hv; cases hv; exact Or.inr ⟨e, rfl⟩
      · rw [hres] at hv
        cases herr : env.mgrSetup (s.next + 1)
            (mspList env (s.next + 1) (rebuilt env s.next store mspID c).idMap) with
        | none =>
          rw [herr] at hv
          simp only [Option.isSome_none, Bool.false_eq_true, if_false, Ret.done.injEq] at hv
          exact Or.inl hv.symm
        | some e =>
          rw [herr] at hv
          simp only [Option.isSome_some, if_true, Ret.done.injEq] at hv
          exact Or.inr ⟨e, hv.symm⟩
    | none =>
      rcases ProposeMSP_closed_cases env s c hpc with ⟨e, he⟩ | ⟨_, _, _, _, _, hp⟩
      · rw [he] at hv; cases hv; exact Or.inr ⟨e, rfl⟩
      · rw [hp] at hv; cases hv
  refine ⟨fun store h => (ProposeMSP_open env s c store h).1, hdich, ?_⟩
  intro i hi
  have hi2 : i = ⟨s.next, c⟩ := by
    rcases hdich _ hi with h | ⟨e, h⟩
    · simp only [Prod.mk.injEq, Option.some.injEq, and_true] at h
      exact h
    · cases h
  subst hi2
  refine ⟨rfl, rfl, ?_⟩
  cases hpc : s.bh.pendingConfig with
  | none =>
    rcases ProposeMSP_closed_cases env s c hpc with ⟨e, he⟩ | ⟨_, _, _, _, _, hp⟩
    · rw [he] at hi; cases hi
    · rw [hp] at hi; cases hi
  | some store =>
    rcases ProposeMSP_cases env s c store hpc with
      ⟨_, _, e, he⟩ | ⟨mspID, _, _, _, hg, _, hst, _⟩
    · rw [he] at hi; cases hi
    · refine ⟨rebuilt env s.next store mspID c, mspID, by rw [hst], hg, ?_⟩
      simp [rebuilt, AList.lookup_insert]

/-- Witness of C15: a first insertion returns the new instance and no error. -/
theorem propose_returns_one_witness :
    (ProposeMSP demoEnv demoOpen cfgA).2 = .done (some ⟨2, cfgA⟩, none) ∧
    ((⟨2, cfgA⟩ : MSP).conf = cfgA ∧ (⟨2, cfgA⟩ : MSP).ref = demoOpen.next ∧
      ∃ store2 mspID, (ProposeMSP demoEnv demoOpen cfgA).1.bh.pendingConfig = some store2 ∧
        demoEnv.GetIdentifier ⟨2, cfgA⟩ = .ok mspID ∧
        store2.idMap.lookup mspID = some { mspConfig := cfgA, msp := ⟨2, cfgA⟩ }) :=
  ⟨by decide, (propose_returns_one demoEnv demoOpen cfgA).2.2 ⟨2, cfgA⟩ (by decide)⟩

/-- Two proposals, of different identifiers, on a freshly opened store: both entries are
written, whatever the manager setups answer. -/
theorem two_proposals (env : Env) (s : Sys) (r : Nat) (x y : MSPConfig) (idX idY : String)
    (hopen : s.bh.pendingConfig = some { ref := r, idMap := ∅, proposedMgr := none })
    (htx : x.type = env.FABRIC) (hty : y.type = env.FABRIC)
    (hnx : env.NewBccspMsp s.next = none) (hny : env.NewBccspMsp (s.next + 2) = none)
    (hsx : env.Setup s.next x = none) (hsy : env.Setup (s.next + 2) y = none)
    (hix : env.GetIdentifier ⟨s.next, x⟩ = .ok idX)
    (hiy : env.GetIdentifier ⟨s.next + 2, y⟩ = .ok idY)
    (hne : idX ≠ idY) :
    ∃ st, (proposeAll env s [x, y]).1.bh.pendingConfig = some st ∧
      st.idMap = ((∅ : IdMap).insert idX { mspConfig := x, msp := ⟨s.next, x⟩ }).insert idY
        { mspConfig := y, msp := ⟨s.next + 2, y⟩ } := by
  have h1 := ProposeMSP_insert env s x _ idX hopen htx hnx hsx hix
    (by intro p hp; simp at hp)
  have hstate : (ProposeMSP env s x).1 =
      { next := s.next + 2,
        bh := { s.bh with
          pendingConfig :=
            some (rebuilt env s.next { ref := r, idMap := ∅, proposedMgr := none } idX x) } } := by
    rw [h1]
  have hlook : (rebuilt env s.next { ref := r, idMap := ∅, proposedMgr := none } idX
      x).idMap.lookup idY = none := by
    simp only [rebuilt]
    rw [AList.lookup_insert_ne (fun h => hne h.symm)]
    rfl
  have h2 := ProposeMSP_insert env
    { next := s.next + 2,
      bh := { s.bh with
        pendingConfig :=
          some (rebuilt env s.next { ref := r, idMap := ∅, proposedMgr := none } idX x) } }
    y _ idY rfl hty hny hsy hiy (by intro p hp; rw [hlook] at hp; cases hp)
  refine ⟨rebuilt env (s.next + 2)
    (rebuilt env s.next { ref := r, idMap := ∅, proposedMgr := none } idX x) idY y, ?_, rfl⟩
  show (ProposeMSP env (ProposeMSP env s x).1 y).1.bh.pendingConfig = _
  rw [hstate, h2]

/-- C16 (insertion order): for two configurations `a` and `b` of the supported type whose
providers are built and report the different identifiers `idA` and `idB` (at either of the
two addresses used), proposing `a` then `b` and proposing `b` then `a` to the same freshly
opened store yield maps with the same identifiers, each mapped to the same configuration,
whatever the manager setups answer. -/
theorem insertion_order_irrelevant (env : Env) (s : Sys) (r : Nat) (a b : MSPConfig)
    (idA idB : String)
    (hopen : s.bh.pendingConfig = some { ref := r, idMap := ∅, proposedMgr := none })
    (hta : a.type = env.FABRIC) (htb : b.type = env.FABRIC)
    (hn1 : env.NewBccspMsp s.next = none) (hn2 : env.NewBccspMsp (s.next + 2) = none)
    (hsa1 : env.Setup s.next a = none) (hsa2 : env.Setup (s.next + 2) a = none)
    (hsb1 : env.Setup s.next b = none) (hsb2 : env.Setup (s.next + 2) b = none)
    (hia1 : env.GetIdentifier ⟨s.next, a⟩ = .ok idA)
    (hia2 : env.GetIdentifier ⟨s.next + 2, a⟩ = .ok idA)
    (hib1 : env.GetIdentifier ⟨s.next, b⟩ = .ok idB)
    (hib2 : env.GetIdentifier ⟨s.next + 2, b⟩ = .ok idB)
    (hne : idA ≠ idB) :
    ∃ stAB stBA,
      (proposeAll env s [a, b]).1.bh.pendingConfig = some stAB ∧
      (proposeAll env s [b, a]).1.bh.pendingConfig = some stBA ∧
      (∀ k, (stAB.idMap.lookup k).map (fun p => p.mspConfig)
        = (stBA.idMap.lookup k).map (fun p => p.mspConfig)) ∧
      (∀ k, k ∈ stAB.idMap ↔ k ∈ stBA.idMap) ∧
      stAB.idMap.keys.Perm stBA.idMap.keys ∧
      (stAB.idMap.lookup idA).map (fun p => p.mspConfig) = some a ∧
      (stAB.idMap.lookup idB).map (fun p => p.mspConfig) = some b := by
  obtain ⟨stAB, hAB, hmAB⟩ := two_proposals env s r a b idA idB hopen hta htb hn1 hn2
    hsa1 hsb2 hia1 hib2 hne
  obtain ⟨stBA, hBA, hmBA⟩ := two_proposals env s r b a idB idA hopen htb hta hn1 hn2
    hsb1 hsa2 hib1 hia2 (fun h => hne h.symm)
  have hne2 : idB ≠ idA := fun h => hne h.symm
  have hlook : ∀ k, (stAB.idMap.lookup k).map (fun p => p.mspConfig)
      = (stBA.idMap.lookup k).map (fun p => p.mspConfig) := by
    intro k
    rw [hmAB, hmBA]
    by_cases hkA : k = idA
    · subst hkA
      rw [AList.lookup_insert_ne hne, AList.lookup_insert, AList.lookup_insert]
      rfl
    · by_cases hkB : k = idB
      · subst hkB
        rw [AList.lookup_insert, AList.lookup_insert_ne hkA, AList.lookup_insert]
        rfl
      · rw [AList.lookup_insert_ne hkB, AList.lookup_insert_ne hkA,
          AList.lookup_insert_ne hkA, AList.lookup_insert_ne hkB]
  have hmem : ∀ k, k ∈ stAB.idMap ↔ k ∈ stBA.idMap := by
    intro k
    rw [hmAB, hmBA]
    simp only [AList.mem_insert]
    tauto
  refine ⟨stAB, stBA, hAB, hBA, hlook, hmem, ?_, ?_, ?_⟩
  · rw [List.perm_ext_iff_of_nodup stAB.idMap.keys_nodup stBA.idMap.keys_nodup]
    intro k
    rw [← AList.mem_keys, ← AList.mem_keys]
    exact hmem k
  · rw [hmAB, AList.lookup_insert_ne hne, AList.lookup_insert]; rfl
  · rw [hmAB, AList.lookup_insert]; rfl

/-- Witness of C16: org1 then a rejected org3, and the rejected org3 then org1. -/
theorem insertion_order_irrelevant_witness :
    ∃ stAB stBA,
      (proposeAll demoEnv demoOpen [cfgA, cfgPoison]).1.bh.pendingConfig = some stAB ∧
      (proposeAll demoEnv demoOpen [cfgPoison, cfgA]).1.bh.pendingConfig = some stBA ∧
      (∀ k, (stAB.idMap.lookup k).map (fun p => p.mspConfig)
        = (stBA.idMap.lookup k).map (fun p => p.mspConfig)) ∧
      (∀ k, k ∈ stAB.idMap ↔ k ∈ stBA.idMap) ∧
      stAB.idMap.keys.Perm stBA.idMap.keys ∧
      (stAB.idMap.lookup "org1").map (fun p => p.mspConfig) = some cfgA ∧
      (stAB.idMap.lookup "org3").map (fun p => p.mspConfig) = some cfgPoison :=
  insertion_order_irrelevant demoEnv demoOpen 1 cfgA cfgPoison "org1" "org3"
    (by decide) (by decide) (by decide) (by decide) (by decide) (by decide) (by decide)
    (by decide) (by decide) (by decide) (by decide) (by decide) (by decide) (by decide)

/-- C17: `CommitConfig` validates nothing: with a proposal open it returns normally, installs
the proposed manager of the store as it is and closes the proposal.  In particular
`BeginConfig` followed at once by `CommitConfig` leaves an absent (nil) committed manager,
whatever the committed manager was, and `CommitConfig` after a `ProposeMSP` whose manager
setup failed installs that manager, whose `Setup` failed. -/
theorem commit_no_validation (env : Env) (s : Sys) (store : mspConfigStore)
    (hopen : s.bh.pendingConfig = some store) :
    CommitConfig s =
      ({ s with bh := { pendingConfig := none, MSPManager := store.proposedMgr } },
       .done ()) ∧
    (∀ t : Sys, t.bh.pendingConfig = none →
      (CommitConfig (BeginConfig t).1).2 = .done () ∧
      (CommitConfig (BeginConfig t).1).1.bh = { pendingConfig := none, MSPManager := none }) ∧
    (∀ (c : MSPConfig) (mspID err : String),
      c.type = env.FABRIC → env.NewBccspMsp s.next = none → env.Setup s.next c = none →
      env.GetIdentifier ⟨s.next, c⟩ = .ok mspID →
      (∀ p, store.idMap.lookup mspID = some p → p.mspConfig = c) →
      env.mgrSetup (s.next + 1) (mspList env (s.next + 1)
        (store.idMap.insert mspID { mspConfig := c, msp := ⟨s.next, c⟩ })) = some err →
      (ProposeMSP env s c).2 = .done (none, some err) ∧
      (CommitConfig (ProposeMSP env s c).1).2 = .done () ∧
      (CommitConfig (ProposeMSP env s c).1).1.bh =
        { pendingConfig := none,
          MSPManager := some
            { ref := s.next + 1,
              msps := some (mspList env (s.next + 1)
                (store.idMap.insert mspID { mspConfig := c, msp := ⟨s.next, c⟩ })),
              up := false } }) := by
  refine ⟨by simp [CommitConfig, hopen], ?_, ?_⟩
  · intro t ht
    rw [BeginConfig_idle t ht]
    exact ⟨rfl, rfl⟩
  · intro c mspID err ht hn hs hid hcompat hfail
    have hfail2 : env.mgrSetup (s.next + 1)
        (mspList env (s.next + 1) (rebuilt env s.next store mspID c).idMap) = some err := hfail
    rw [ProposeMSP_insert env s c store mspID hopen ht hn hs hid hcompat, hfail2]
    refine ⟨rfl, rfl, ?_⟩
    simp only [CommitConfig]
    have : (rebuilt env s.next store mspID c).proposedMgr = some
        { ref := s.next + 1,
          msps := some (mspList env (s.next + 1)
            (store.idMap.insert mspID { mspConfig := c, msp := ⟨s.next, c⟩ })),
          up := (env.mgrSetup (s.next + 1)
            (mspList env (s.next + 1) (rebuilt env s.next store mspID c).idMap)).isNone } := rfl
    rw [this, hfail2]
    rfl

/-- Witness of C17: commit right after begin, and commit after a failed manager setup. -/
theorem commit_no_validation_witness :
    (CommitConfig (BeginConfig demoIdle).1).1.bh = { pendingConfig := none, MSPManager := none } ∧
    (CommitConfig (ProposeMSP demoEnv demoOne cfgPoison).1).1.bh =
      { pendingConfig := none,
        MSPManager := some
          { ref := demoOne.next + 1,
            msps := some (mspList demoEnv (demoOne.next + 1)
              (((∅ : IdMap).insert "org1" ⟨cfgA, ⟨2, cfgA⟩⟩).insert "org3"
                { mspConfig := cfgPoison, msp := ⟨demoOne.next, cfgPoison⟩ })),
            up := false } } :=
  ⟨((commit_no_validation demoEnv demoOne
      { ref := 1, idMap := (∅ : IdMap).insert "org1" ⟨cfgA, ⟨2, cfgA⟩⟩,
        proposedMgr := some ⟨3, some [⟨2, cfgA⟩], true⟩ } (by decide)).2.1 demoIdle
        (by decide)).2,
   ((commit_no_validation demoEnv demoOne
      { ref := 1, idMap := (∅ : IdMap).insert "org1" ⟨cfgA, ⟨2, cfgA⟩⟩,
        proposedMgr := some ⟨3, some [⟨2, cfgA⟩], true⟩ } (by decide)).2.2
        cfgPoison "org3" "rejected" (by decide) (by decide) (by decide) (by decide)
        (by decide) (by decide)).2.2⟩

/-- C18: `ProposeMSP` has no guard on the open proposal.  With no proposal open, a
configuration of an unsupported type gets the ordinary type error and the state is
unchanged; a configuration whose instance is created, set up and reports its identifier
makes the call panic on the map lookup (nil store), the handler being unchanged. -/
theorem propose_without_proposal (env : Env) (s : Sys) (c : MSPConfig)
    (hclosed : s.bh.pendingConfig = none) :
    (c.type ≠ env.FABRIC →
      ProposeMSP env s c = (s, .done (none,
        some ("Setup error: unsupported msp type " ++ toString c.type)))) ∧
    (∀ mspID, c.type = env.FABRIC → env.NewBccspMsp s.next = none →
      env.Setup s.next c = none → env.GetIdentifier ⟨s.next, c⟩ = .ok mspID →
      (ProposeMSP env s c).2 =
        .panic "runtime error: invalid memory address or nil pointer dereference" ∧
      (∀ v, (ProposeMSP env s c).2 ≠ .done v) ∧
      (ProposeMSP env s c).1.bh = s.bh) := by
  constructor
  · intro ht
    simp [ProposeMSP, ht]
  · intro mspID ht hn hs hid
    have hp : ProposeMSP env s c = ({ s with next := s.next + 1 },
        .panic "runtime error: invalid memory address or nil pointer dereference") := by
      simp [ProposeMSP, ht, hn, hs, hid, hclosed]
    rw [hp]
    refine ⟨rfl, ?_, rfl⟩
    intro v hv
    cases hv

/-- Witness of C18: an unsupported type and a well-formed configuration, proposed with no
proposal open. -/
theorem propose_without_proposal_witness :
    ProposeMSP demoEnv demoIdle cfgBad = (demoIdle, .done (none,
      some ("Setup error: unsupported msp type " ++ toString cfgBad.type))) ∧
    (ProposeMSP demoEnv demoIdle cfgA).2 =
      .panic "runtime error: invalid memory address or nil pointer dereference" ∧
    (ProposeMSP demoEnv demoIdle cfgA).1.bh = demoIdle.bh :=
  ⟨(propose_without_proposal demoEnv demoIdle cfgBad (by decide)).1 (by decide),
   ((propose_without_proposal demoEnv demoIdle cfgA (by decide)).2 "org1"
      (by decide) (by decide) (by decide) (by decide)).1,
   ((propose_without_proposal demoEnv demoIdle cfgA (by decide)).2 "org1"
      (by decide) (by decide) (by decide) (by decide)).2.2⟩

end MSPHandler
